import Mathlib

/-! # The Kubernetes-backed read-only catalog

A shallow embedding of `store/kubernetes/catalog.go`: the catalog keeps two maps
(`services`: service name to instance list, `instances`: instance ID to instance),
rebuilds both from the endpoint list of the directory on every `refresh`, answers
`ListServices`, `List` and `Instance` from them, and rejects every mutation.

Conventions of the embedding

* Go maps are `AList`s (association lists without duplicate keys).  Go leaves the
  iteration order of a map unspecified; the embedding iterates in the order of the
  association list, and the theorems about `ListServices` speak of membership only.
* The two maps of the catalog are only ever assigned `serviceMap{}`, `instanceMap{}`
  or the maps built by `getServices`, which stores non-nil slices and non-nil pointers
  only (`insts` starts as the empty, non-nil literal).  Map values are therefore
  lists and records, and looking a key up gives `none` exactly when Go yields `nil`.
* Every operation is a sequential state transformer on the catalog.  The read/write
  lock appears only in the trace of `refresh` (`refreshTraced`), which records the
  steps of the method in program order; the interleaving of readers is not modelled.
* Map values are records wherever a claim is about their content.  The copies that
  `List` and `Instance` hand out are studied in a second, pointer-level model of the
  two methods (`ListPtr`, `InstancePtr`) over an explicit memory.
* The logger is the field `logged`, the lines written so far.
* The reply of the directory call `client.getEndpointsList(namespace)` is an
  argument of `getServices` and `refresh`.
-/

namespace store

/-- Modelled from the spec: the error kinds of package `store` this catalog uses
(`NoSuchService`, `NoSuchInstance`, and the bad-request class of
`UnsupportedOperation`); the declaration is not among the given sources. -/
inductive ErrorCode where
  | ErrorBadRequest
  | ErrorNoSuchServiceName
  | ErrorNoSuchServiceInstance
  deriving DecidableEq, Repr

/-- Modelled from the spec: the typed error of package `store`, an error kind with
its message and cause. -/
structure Error where
  Code : ErrorCode
  Message : String
  Cause : String
  deriving DecidableEq, Repr

/-- Modelled from the spec: `store.NewError(code, message, cause)` builds the typed
error of the given kind. -/
def NewError (code : ErrorCode) (message : String) (cause : String) : Error :=
  { Code := code, Message := message, Cause := cause }

/-- Modelled from the spec: `endpoint` is a transport type and a dial target. -/
structure Endpoint where
  Type_ : String
  Value : String
  deriving DecidableEq, Repr

/-- Modelled from the spec: the `ServiceInstance` record, with the fields the
catalog fills in.  `Metadata` holds the bytes of the text it was converted from. -/
structure ServiceInstance where
  ID : String
  ServiceName : String
  Endpoint : Endpoint
  Status : String
  Metadata : String
  Tags : List String
  TTL : Int
  deriving DecidableEq, Repr

/-- Modelled from the spec: `Service` is the projection `{serviceName}`. -/
structure Service where
  ServiceName : String
  deriving DecidableEq, Repr

/-- Modelled from the spec: `DeepClone` returns an independent copy of the record,
every field (the endpoint and the tags included) rebuilt from the original. -/
def ServiceInstance.DeepClone (si : ServiceInstance) : ServiceInstance :=
  { ID := si.ID
    ServiceName := si.ServiceName
    Endpoint := { Type_ := si.Endpoint.Type_, Value := si.Endpoint.Value }
    Status := si.Status
    Metadata := si.Metadata
    Tags := si.Tags.map id
    TTL := si.TTL }

/-- A `store.Predicate` is a function on instances, or `nil` (`none`). -/
abbrev Predicate := Option (ServiceInstance → Bool)

end store

namespace kubernetes

open store

/-- Modelled from the spec: the protocol reported for a port.  The source compares it
with the two constants `ProtocolUDP` and `ProtocolTCP` in a `switch` that has no
`default` branch; `other` stands for any value that is neither. -/
inductive Protocol where
  | TCP
  | UDP
  | other (name : String)
  deriving DecidableEq, Repr

/-- The constant `ProtocolTCP`. -/
abbrev ProtocolTCP : Protocol := Protocol.TCP

/-- The constant `ProtocolUDP`. -/
abbrev ProtocolUDP : Protocol := Protocol.UDP

/-- Modelled from the spec: the optional reference attached to an address
(`targetRefID`). -/
structure ObjectReference where
  UID : String
  deriving DecidableEq, Repr

/-- Modelled from the spec: an address `{ip, targetRefID?}`. -/
structure EndpointAddress where
  IP : String
  TargetRef : Option ObjectReference
  deriving DecidableEq, Repr

/-- Modelled from the spec: a port `{number, protocol}`. -/
structure EndpointPort where
  Port : Int
  Protocol : Protocol
  deriving DecidableEq, Repr

/-- Modelled from the spec: a subset, `{addresses, ports}`. -/
structure EndpointSubset where
  Addresses : List EndpointAddress
  Ports : List EndpointPort
  deriving DecidableEq, Repr

/-- Modelled from the spec: the metadata of a directory entry (its name). -/
structure ObjectMeta where
  Name : String
  deriving DecidableEq, Repr

/-- Modelled from the spec: a named directory entry with its subsets. -/
structure Endpoints where
  ObjectMeta : ObjectMeta
  Subsets : List EndpointSubset
  deriving DecidableEq, Repr

/-- Modelled from the spec: what the directory returns, the list of entries. -/
structure EndpointsList where
  Items : List Endpoints
  deriving DecidableEq, Repr

/-- The type `auth.Namespace`, a string. -/
abbrev Namespace := String

/-- Modelled from the spec: the client of the directory.  Only `getEndpointsURL`
is a function of the client alone; the reply of `getEndpointsList` is passed to
`getServices` explicitly. -/
structure k8sClient where
  getEndpointsURL : Namespace → String

/-- The type `serviceMap`: service name to instance list. -/
abbrev serviceMap := AList (fun _ : String => List ServiceInstance)

/-- The type `instanceMap`: instance ID to instance. -/
abbrev instanceMap := AList (fun _ : String => ServiceInstance)

/-- The catalog `k8sCatalog`; `logged` is what the logger has received. -/
structure k8sCatalog where
  namespace_ : Namespace
  client : k8sClient
  services : serviceMap
  instances : instanceMap
  logged : List String

/-- The reply of `client.getEndpointsList`: the endpoint list, or an error (its text). -/
abbrev DirectoryReply := Except String EndpointsList

/-- The formatting verb `%d` for an integer: its decimal digits, with a minus sign
when negative. -/
def fmtD (n : Int) : String := toString n

/-- The body of the innermost loop of `getServices` (lines 160-181): the instance
built for one address and one port of an entry named `sname`. -/
def newInstance (url : String) (sname : String) (address : EndpointAddress)
    (port : EndpointPort) : ServiceInstance :=
  let endpointType : String :=
    match port.Protocol with
    | Protocol.UDP => "udp"
    | Protocol.TCP => "tcp"
    | Protocol.other _ => ""
  let endpointValue : String := address.IP ++ ":" ++ fmtD port.Port
  let uid : String :=
    match address.TargetRef with
    | some ref => ref.UID
    | none => address.IP
  { ID := uid ++ "-" ++ fmtD port.Port
    ServiceName := sname
    Endpoint := { Type_ := endpointType, Value := endpointValue }
    Status := "UP"
    Metadata := "\x7b\"kubernetes_url\":\"" ++ url ++ "/" ++ sname ++ "\"\x7d"
    Tags := ["kubernetes"]
    TTL := 0 }

/-- The loop over `subset.Ports` (lines 159-184): each port appends its instance to
`insts` and stores it in `instances` under its ID. -/
def portsLoop (url sname : String) (address : EndpointAddress) (ports : List EndpointPort)
    (st : List ServiceInstance × instanceMap) : List ServiceInstance × instanceMap :=
  ports.foldl
    (fun acc port =>
      let inst := newInstance url sname address port
      (acc.1 ++ [inst], acc.2.insert inst.ID inst))
    st

/-- The loop over `subset.Addresses` (lines 158-185). -/
def addressesLoop (url sname : String) (subset : EndpointSubset)
    (st : List ServiceInstance × instanceMap) : List ServiceInstance × instanceMap :=
  subset.Addresses.foldl (fun acc address => portsLoop url sname address subset.Ports acc) st

/-- The loop over `endpoints.Subsets` (lines 157-187): after the addresses of a
subset, `services[sname] = insts`. -/
def subsetsLoop (url sname : String) (subsets : List EndpointSubset)
    (st : serviceMap × instanceMap × List ServiceInstance) :
    serviceMap × instanceMap × List ServiceInstance :=
  subsets.foldl
    (fun acc subset =>
      let r := addressesLoop url sname subset (acc.2.2, acc.2.1)
      (acc.1.insert sname r.1, r.2, r.1))
    st

/-- The loop over `endpointsList.Items` (lines 154-188): every entry starts from an
empty `insts`. -/
def itemsLoop (url : String) (items : List Endpoints) (st : serviceMap × instanceMap) :
    serviceMap × instanceMap :=
  items.foldl
    (fun acc endpoints =>
      let sname := endpoints.ObjectMeta.Name
      let r := subsetsLoop url sname endpoints.Subsets (acc.1, acc.2, [])
      (r.1, r.2.1))
    st

/-- The result of `getServices`: the catalog (its log), the two maps and the error. -/
structure getServicesResult where
  kc : k8sCatalog
  services : serviceMap
  instances : instanceMap
  err : Option String

/-- The method `getServices` (lines 146-190). -/
def getServices (kc : k8sCatalog) (reply : DirectoryReply) : getServicesResult :=
  let services : serviceMap := ∅
  let instances : instanceMap := ∅
  match reply with
  | Except.error err =>
    { kc := { kc with logged := kc.logged ++ ["Unable to get endpoints: " ++ err] }
      services := services, instances := instances, err := some err }
  | Except.ok endpointsList =>
    let r := itemsLoop (kc.client.getEndpointsURL kc.namespace_) endpointsList.Items
      (services, instances)
    { kc := kc, services := r.1, instances := r.2, err := none }

/-- The method `refresh` (lines 135-144). -/
def refresh (kc : k8sCatalog) (reply : DirectoryReply) : k8sCatalog :=
  let r := getServices kc reply
  match r.err with
  | none => { r.kc with services := r.services, instances := r.instances }
  | some _ => r.kc

/-- The test `predicate == nil || predicate(inst)`. -/
def accepts (predicate : Predicate) (inst : ServiceInstance) : Bool :=
  match predicate with
  | none => true
  | some p => p inst

/-- The inner loop of `ListServices` (lines 75-80): the service is appended at the
first accepted instance and the loop is left. -/
def listServicesInner (predicate : Predicate) (service : String) :
    List ServiceInstance → List Service → List Service
  | [], serviceCollection => serviceCollection
  | inst :: rest, serviceCollection =>
    if accepts predicate inst then serviceCollection ++ [{ ServiceName := service }]
    else listServicesInner predicate service rest serviceCollection

/-- The method `ListServices` (lines 69-84). -/
def ListServices (kc : k8sCatalog) (predicate : Predicate) : List Service :=
  kc.services.entries.foldl
    (fun serviceCollection e => listServicesInner predicate e.1 e.2 serviceCollection) []

/-- The loop of `List` (lines 96-100). -/
def listLoop (predicate : Predicate) :
    List ServiceInstance → List ServiceInstance → List ServiceInstance
  | [], instanceCollection => instanceCollection
  | inst :: rest, instanceCollection =>
    if accepts predicate inst then listLoop predicate rest (instanceCollection ++ [inst.DeepClone])
    else listLoop predicate rest instanceCollection

/-- The method `List` (lines 86-102). -/
def List_ (kc : k8sCatalog) (serviceName : String) (predicate : Predicate) :
    Except Error (List ServiceInstance) :=
  match kc.services.lookup serviceName with
  | none => Except.error (NewError ErrorCode.ErrorNoSuchServiceName "no such service " serviceName)
  | some service => Except.ok (listLoop predicate service [])

/-- The method `Instance` (lines 104-113). -/
def Instance (kc : k8sCatalog) (instanceID : String) : Except Error ServiceInstance :=
  match kc.instances.lookup instanceID with
  | none =>
    Except.error (NewError ErrorCode.ErrorNoSuchServiceInstance "no such service instance" instanceID)
  | some inst => Except.ok inst.DeepClone

/-- The method `Register` (lines 115-118): the catalog after the call, then the
returned instance and the returned error. -/
def Register (kc : k8sCatalog) (_si : Option ServiceInstance) :
    k8sCatalog × Option ServiceInstance × Option Error :=
  ({ kc with logged := kc.logged ++ ["Unsupported API (Register) called"] },
   none,
   some (NewError ErrorCode.ErrorBadRequest "Read-only Catalog: API Not Supported" "Register"))

/-- The method `Deregister` (lines 120-123). -/
def Deregister (kc : k8sCatalog) (_instanceID : String) : k8sCatalog × Option Error :=
  ({ kc with logged := kc.logged ++ ["Unsupported API (Deregister) called"] },
   some (NewError ErrorCode.ErrorBadRequest "Read-only Catalog: API Not Supported" "Deregister"))

/-- The method `Renew` (lines 125-128). -/
def Renew (kc : k8sCatalog) (_instanceID : String) : k8sCatalog × Option Error :=
  ({ kc with logged := kc.logged ++ ["Unsupported API (Renew) called"] },
   some (NewError ErrorCode.ErrorBadRequest "Read-only Catalog: API Not Supported" "Renew"))

/-- The method `SetStatus` (lines 130-133). -/
def SetStatus (kc : k8sCatalog) (_instanceID _status : String) : k8sCatalog × Option Error :=
  ({ kc with logged := kc.logged ++ ["Unsupported API (SetStatus) called"] },
   some (NewError ErrorCode.ErrorBadRequest "Read-only Catalog: API Not Supported" "SetStatus"))

/-- The constructor `newK8sCatalog` (lines 47-67) up to its first, synchronous
refresh; the ticker only calls `refresh` again later. -/
def newK8sCatalog (namespace_ : Namespace) (client : k8sClient) (reply : DirectoryReply) :
    k8sCatalog × Option Error :=
  let catalog : k8sCatalog :=
    { services := ∅, instances := ∅, namespace_ := namespace_, client := client, logged := [] }
  (refresh catalog reply, none)


/-! ## Specification-level descriptions of the built index -/

/-- The instances one subset of an entry named `sname` gives rise to, in enumeration
order: its addresses in order and, for each address, its ports in order. -/
def subsetInstances (url sname : String) (subset : EndpointSubset) : List ServiceInstance :=
  subset.Addresses.flatMap (fun address => subset.Ports.map (newInstance url sname address))

/-- The instances of one directory entry, subset after subset. -/
def entryInstances (url : String) (endpoints : Endpoints) : List ServiceInstance :=
  endpoints.Subsets.flatMap (subsetInstances url endpoints.ObjectMeta.Name)

/-- Every instance the snapshot gives rise to, entry after entry. -/
def generatedInstances (url : String) (items : List Endpoints) : List ServiceInstance :=
  items.flatMap (entryInstances url)

/-- Storing a sequence of instances under their IDs, one after the other. -/
def insertAll (m : instanceMap) (l : List ServiceInstance) : instanceMap :=
  l.foldl (fun acc inst => acc.insert inst.ID inst) m

/-- Storing, entry after entry, the instance list of every entry that has a subset. -/
def insertEntries (url : String) (sv : serviceMap) (items : List Endpoints) : serviceMap :=
  items.foldl
    (fun acc endpoints =>
      if endpoints.Subsets = [] then acc
      else acc.insert endpoints.ObjectMeta.Name (entryInstances url endpoints))
    sv

/-- The generated instance IDs of a snapshot are pairwise distinct. -/
def DistinctIDs (url : String) (endpointsList : EndpointsList) : Prop :=
  ((generatedInstances url endpointsList.Items).map (fun inst => inst.ID)).Nodup

/-- The entries of a snapshot have pairwise distinct names. -/
def DistinctNames (endpointsList : EndpointsList) : Prop :=
  (endpointsList.Items.map (fun endpoints => endpoints.ObjectMeta.Name)).Nodup

instance (url : String) (endpointsList : EndpointsList) : Decidable (DistinctIDs url endpointsList) := by
  unfold DistinctIDs; infer_instance

instance (endpointsList : EndpointsList) : Decidable (DistinctNames endpointsList) := by
  unfold DistinctNames; infer_instance


/-! ## Concrete snapshots and catalogs -/

/-- The two maps are mutually consistent: every instance of a `services` list is
stored in `instances` under its ID with an identical record, and every record of
`instances` is in the `services` list of its service name. -/
def Consistent (sv : serviceMap) (m : instanceMap) : Prop :=
  (∀ n l x, sv.lookup n = some l → x ∈ l → m.lookup x.ID = some x) ∧
  (∀ k r, m.lookup k = some r → ∃ l, sv.lookup r.ServiceName = some l ∧ r ∈ l)

/-- A client whose endpoints URL is built from the namespace. -/
def exampleClient : k8sClient :=
  { getEndpointsURL := fun ns => "http://k8s/api/v1/namespaces/" ++ ns ++ "/endpoints" }

/-- The catalog constructed while the directory is unreachable. -/
def emptyCatalog : k8sCatalog :=
  (newK8sCatalog "default" exampleClient (Except.error "connection refused")).1

/-- The address `10.0.0.5` with target reference `abc`. -/
def webAddress : EndpointAddress := { IP := "10.0.0.5", TargetRef := some { UID := "abc" } }

/-- The port `8080/tcp`. -/
def webPort : EndpointPort := { Port := 8080, Protocol := ProtocolTCP }

/-- The snapshot of the end-to-end scenario: one entry `web`, one subset, one
address with a target reference, one TCP port. -/
def webSnapshot : EndpointsList :=
  { Items := [{ ObjectMeta := { Name := "web" }
                Subsets := [{ Addresses := [webAddress], Ports := [webPort] }] }] }

/-- The catalog after a successful refresh from `webSnapshot`. -/
def webCatalog : k8sCatalog := refresh emptyCatalog (Except.ok webSnapshot)

/-- The instance the scenario expects. -/
def webInstance : ServiceInstance :=
  { ID := "abc-8080"
    ServiceName := "web"
    Endpoint := { Type_ := "tcp", Value := "10.0.0.5:8080" }
    Status := "UP"
    Metadata := "\x7b\"kubernetes_url\":\"http://k8s/api/v1/namespaces/default/endpoints/web\"\x7d"
    Tags := ["kubernetes"]
    TTL := 0 }

/-- A snapshot with one entry `kube-dns` whose single address serves port 53 over
both UDP and TCP. -/
def dnsSnapshot : EndpointsList :=
  { Items := [{ ObjectMeta := { Name := "kube-dns" }
                Subsets := [{ Addresses := [{ IP := "10.0.0.10", TargetRef := some { UID := "abc" } }]
                              Ports := [{ Port := 53, Protocol := ProtocolUDP },
                                        { Port := 53, Protocol := ProtocolTCP }] }] }] }

/-- A snapshot with one entry `web` whose single subset has a port but no ready
address. -/
def pendingSnapshot : EndpointsList :=
  { Items := [{ ObjectMeta := { Name := "web" }
                Subsets := [{ Addresses := [], Ports := [webPort] }] }] }

/-- The catalog after a successful refresh from `pendingSnapshot`. -/
def pendingCatalog : k8sCatalog := refresh emptyCatalog (Except.ok pendingSnapshot)


/-- Every port of the snapshot reports one of the two protocols of the directory
interface, TCP or UDP. -/
def ReportedProtocols (endpointsList : EndpointsList) : Prop :=
  ∀ e ∈ endpointsList.Items, ∀ s ∈ e.Subsets, ∀ p ∈ s.Ports,
    p.Protocol = ProtocolTCP ∨ p.Protocol = ProtocolUDP

instance (endpointsList : EndpointsList) : Decidable (ReportedProtocols endpointsList) := by
  unfold ReportedProtocols; infer_instance

/-- A snapshot with two entries: `web` with one address and one port, and `idle`
without any subset. -/
def mixedSnapshot : EndpointsList :=
  { Items := [{ ObjectMeta := { Name := "web" }
                Subsets := [{ Addresses := [webAddress], Ports := [webPort] }] },
              { ObjectMeta := { Name := "idle" }, Subsets := [] }] }

/-! ## The steps of a refresh, in program order -/

/-- The observable steps of `refresh`: taking and releasing the write lock, the call
of the directory, the warning on a failed call, the loops that build the new maps,
and the assignment of the two maps. -/
inductive Event where
  | lock
  | unlock
  | directoryCall
  | warn
  | buildIndex
  | swap
  deriving DecidableEq, Repr

/-- The method `getServices` with its steps: the directory call (line 149), then
either the warning (line 151) or the loops over the items (lines 154-188). -/
def getServicesTraced (kc : k8sCatalog) (reply : DirectoryReply) :
    getServicesResult × List Event :=
  match reply with
  | Except.error _ => (getServices kc reply, [Event.directoryCall, Event.warn])
  | Except.ok _ => (getServices kc reply, [Event.directoryCall, Event.buildIndex])

/-- The method `refresh` with its steps: `kc.Lock()` (line 136), the call of
`getServices` (line 139), the two assignments when there is no error (lines
141-142), and the deferred `kc.Unlock()` (line 137) when the method returns. -/
def refreshTraced (kc : k8sCatalog) (reply : DirectoryReply) : k8sCatalog × List Event :=
  let r := getServicesTraced kc reply
  match r.1.err with
  | none =>
    ({ r.1.kc with services := r.1.services, instances := r.1.instances },
     [Event.lock] ++ r.2 ++ [Event.swap] ++ [Event.unlock])
  | some _ => (r.1.kc, [Event.lock] ++ r.2 ++ [Event.unlock])

/-- Whether the write lock is held after a sequence of steps, starting unlocked. -/
def lockHeldAfter (steps : List Event) : Bool :=
  steps.foldl
    (fun held ev =>
      match ev with
      | Event.lock => true
      | Event.unlock => false
      | _ => held)
    false

/-- Whether the write lock is held when step number `i` of a trace runs. -/
def lockHeldAt (steps : List Event) (i : Nat) : Bool := lockHeldAfter (steps.take i)

/-! ## A pointer-level model of the read path

`List` and `Instance` hand out pointers.  To speak of what a caller can do through
a returned pointer, the instances live in a memory of cells: an instance object
holds its strings and its TTL in place, a pointer to its endpoint object, and two
slices (metadata, tags) that point to backing arrays.  An address is the position
of a cell in its store, and allocation appends a cell. -/

/-- An address of a cell. -/
abbrev Addr := Nat

/-- An instance object in memory. -/
structure InstanceCell where
  ID : String
  ServiceName : String
  Endpoint : Addr
  Status : String
  Metadata : Addr
  Tags : Addr
  TTL : Int
  deriving DecidableEq, Repr

/-- The memory: instance objects, endpoint objects, byte arrays and tag arrays. -/
structure Memory where
  instanceCells : List InstanceCell
  endpointCells : List Endpoint
  byteArrays : List String
  tagArrays : List (List String)
  deriving DecidableEq, Repr

/-- The record an address denotes: the instance object with its endpoint, metadata
and tags read through its pointers; `none` for an address that is not allocated. -/
def Memory.load (mem : Memory) (a : Addr) : Option ServiceInstance :=
  match mem.instanceCells[a]? with
  | none => none
  | some c =>
    match mem.endpointCells[c.Endpoint]?, mem.byteArrays[c.Metadata]?, mem.tagArrays[c.Tags]? with
    | some e, some b, some t =>
      some { ID := c.ID, ServiceName := c.ServiceName, Endpoint := e, Status := c.Status
             Metadata := b, Tags := t, TTL := c.TTL }
    | _, _, _ => none

/-- Modelled from the spec: `DeepClone` on a pointer returns an independent copy: one
new instance object with a new endpoint object, a new metadata array and a new tag
array, each holding the content of the original.  The result is the memory after
the allocation and the address of the copy. -/
def Memory.DeepClone (mem : Memory) (a : Addr) : Option (Memory × Addr) :=
  match mem.load a with
  | none => none
  | some v =>
    some ({ instanceCells := mem.instanceCells ++
              [{ ID := v.ID, ServiceName := v.ServiceName
                 Endpoint := mem.endpointCells.length, Status := v.Status
                 Metadata := mem.byteArrays.length, Tags := mem.tagArrays.length
                 TTL := v.TTL }]
            endpointCells := mem.endpointCells ++ [v.Endpoint]
            byteArrays := mem.byteArrays ++ [v.Metadata]
            tagArrays := mem.tagArrays ++ [v.Tags] },
          mem.instanceCells.length)

/-- The map `services` with pointers as the Go type has them. -/
abbrev serviceMapPtr := AList (fun _ : String => List Addr)

/-- The map `instances` with pointers as the Go type has them. -/
abbrev instanceMapPtr := AList (fun _ : String => Addr)

/-- The loop of `List` (lines 96-100) on pointers: every accepted instance is cloned
and the pointer to the clone is appended. -/
def listLoopPtr (predicate : Predicate) :
    List Addr → Memory → List Addr → Option (Memory × List Addr)
  | [], mem, instanceCollection => some (mem, instanceCollection)
  | inst :: rest, mem, instanceCollection =>
    match mem.load inst with
    | none => none
    | some v =>
      if accepts predicate v then
        match mem.DeepClone inst with
        | none => none
        | some r => listLoopPtr predicate rest r.1 (instanceCollection ++ [r.2])
      else listLoopPtr predicate rest mem instanceCollection

/-- The method `List` (lines 86-102) on pointers: the memory after the call and the
returned pointers, or the error. -/
def ListPtr (mem : Memory) (services : serviceMapPtr) (serviceName : String)
    (predicate : Predicate) : Option (Memory × Except Error (List Addr)) :=
  match services.lookup serviceName with
  | none =>
    some (mem, Except.error (NewError ErrorCode.ErrorNoSuchServiceName "no such service "
      serviceName))
  | some service =>
    match listLoopPtr predicate service mem [] with
    | none => none
    | some r => some (r.1, Except.ok r.2)

/-- The method `Instance` (lines 104-113) on pointers. -/
def InstancePtr (mem : Memory) (instances : instanceMapPtr) (instanceID : String) :
    Option (Memory × Except Error Addr) :=
  match instances.lookup instanceID with
  | none =>
    some (mem, Except.error (NewError ErrorCode.ErrorNoSuchServiceInstance
      "no such service instance" instanceID))
  | some inst =>
    match mem.DeepClone inst with
    | none => none
    | some r => some (r.1, Except.ok r.2)

/-- The records a call of `List` returned, read through the returned pointers. -/
def listValues (r : Option (Memory × Except Error (List Addr))) :
    Option (Except Error (List (Option ServiceInstance))) :=
  r.map (fun x => x.2.map (fun coll => coll.map x.1.load))

/-- The record a call of `Instance` returned, read through the returned pointer. -/
def instanceValue (r : Option (Memory × Except Error Addr)) :
    Option (Except Error (Option ServiceInstance)) :=
  r.map (fun x => x.2.map x.1.load)

/-- Every pointer of the index points to an allocated instance whose endpoint,
metadata and tags are allocated. -/
def IndexAllocated (mem : Memory) (services : serviceMapPtr) (instances : instanceMapPtr) :
    Prop :=
  (∀ n l a, services.lookup n = some l → a ∈ l → (mem.load a).isSome) ∧
  (∀ k a, instances.lookup k = some a → (mem.load a).isSome)

/-- What a caller can do with a returned instance: assign its fields (the pointers
included), write through its endpoint pointer, overwrite its metadata bytes, or
overwrite its tags. -/
inductive Mutation where
  | setFields (c : InstanceCell)
  | setEndpoint (e : Endpoint)
  | setMetadata (b : String)
  | setTags (t : List String)
  deriving DecidableEq, Repr

/-- One mutation of the instance returned at address `a`, whose object was `owned`
when it was returned. -/
def Memory.mutate (mem : Memory) (a : Addr) (owned : InstanceCell) : Mutation → Memory
  | Mutation.setFields c => { mem with instanceCells := mem.instanceCells.set a c }
  | Mutation.setEndpoint e => { mem with endpointCells := mem.endpointCells.set owned.Endpoint e }
  | Mutation.setMetadata b => { mem with byteArrays := mem.byteArrays.set owned.Metadata b }
  | Mutation.setTags t => { mem with tagArrays := mem.tagArrays.set owned.Tags t }

/-- A sequence of mutations of one returned instance. -/
def Memory.mutateAll (mem : Memory) (a : Addr) (owned : InstanceCell)
    (ms : List Mutation) : Memory :=
  ms.foldl (fun m mu => m.mutate a owned mu) mem

/-- The store `new` keeps every cell of `old`. -/
def Keeps {α : Type} (old new : List α) : Prop :=
  ∀ (i : Nat) (x : α), old[i]? = some x → new[i]? = some x

/-- The memory `new` keeps every cell of `old`, in all four stores. -/
def Memory.Extends (old new : Memory) : Prop :=
  Keeps old.instanceCells new.instanceCells ∧ Keeps old.endpointCells new.endpointCells ∧
  Keeps old.byteArrays new.byteArrays ∧ Keeps old.tagArrays new.tagArrays

/-- The address `c` and the cells its object points to were allocated after `old`. -/
def Fresh (old new : Memory) (c : Addr) (owned : InstanceCell) : Prop :=
  new.instanceCells[c]? = some owned ∧ old.instanceCells.length ≤ c ∧
  old.endpointCells.length ≤ owned.Endpoint ∧ old.byteArrays.length ≤ owned.Metadata ∧
  old.tagArrays.length ≤ owned.Tags

/-- A memory holding the scenario instance: one instance object with its endpoint,
metadata and tags. -/
def webMemory : Memory :=
  { instanceCells := [{ ID := "abc-8080", ServiceName := "web", Endpoint := 0, Status := "UP"
                        Metadata := 0, Tags := 0, TTL := 0 }]
    endpointCells := [webInstance.Endpoint]
    byteArrays := [webInstance.Metadata]
    tagArrays := [webInstance.Tags] }

/-- The `services` map of the scenario, pointing into `webMemory`. -/
def webServicesPtr : serviceMapPtr := AList.insert "web" [0] ∅

/-- The `instances` map of the scenario, pointing into `webMemory`. -/
def webInstancesPtr : instanceMapPtr := AList.insert "abc-8080" 0 ∅

/-- The index reads the same in `new` as in `old`: every pointer of the two maps
denotes the same record, and `List` and `Instance` return the same records. -/
def IndexUntouched (old new : Memory) (services : serviceMapPtr) (instances : instanceMapPtr) :
    Prop :=
  (∀ n l a, services.lookup n = some l → a ∈ l → new.load a = old.load a) ∧
  (∀ k a, instances.lookup k = some a → new.load a = old.load a) ∧
  (∀ serviceName predicate,
    listValues (ListPtr new services serviceName predicate) =
      listValues (ListPtr old services serviceName predicate)) ∧
  (∀ instanceID,
    instanceValue (InstancePtr new instances instanceID) =
      instanceValue (InstancePtr old instances instanceID))

/-! ## Lemmas about the loops -/

theorem DeepClone_eq (si : ServiceInstance) : si.DeepClone = si := by
  cases si with
  | mk ID ServiceName Endpoint Status Metadata Tags TTL =>
    cases Endpoint
    simp [ServiceInstance.DeepClone]

theorem listLoop_eq (predicate : Predicate) (service acc : List ServiceInstance) :
    listLoop predicate service acc = acc ++ service.filter (accepts predicate) := by
  induction service generalizing acc with
  | nil => simp [listLoop]
  | cons inst rest ih =>
    by_cases h : accepts predicate inst = true
    · simp [listLoop, h, ih, DeepClone_eq]
    · simp [listLoop, h, ih]

theorem listServicesInner_eq (predicate : Predicate) (service : String)
    (instances : List ServiceInstance) (acc : List Service) :
    listServicesInner predicate service instances acc =
      if instances.any (accepts predicate) then acc ++ [{ ServiceName := service }] else acc := by
  induction instances with
  | nil => simp [listServicesInner]
  | cons inst rest ih =>
    by_cases h : accepts predicate inst = true
    · simp [listServicesInner, h]
    · simp [listServicesInner, h, ih]


theorem insertAll_append (m : instanceMap) (l l' : List ServiceInstance) :
    insertAll (insertAll m l) l' = insertAll m (l ++ l') := by
  simp [insertAll, List.foldl_append]

theorem portsLoop_eq (url sname : String) (address : EndpointAddress)
    (ports : List EndpointPort) (insts : List ServiceInstance) (m : instanceMap) :
    portsLoop url sname address ports (insts, m) =
      (insts ++ ports.map (newInstance url sname address),
       insertAll m (ports.map (newInstance url sname address))) := by
  induction ports generalizing insts m with
  | nil => simp [portsLoop, insertAll]
  | cons port rest ih =>
    have h := ih (insts ++ [newInstance url sname address port])
      (m.insert (newInstance url sname address port).ID (newInstance url sname address port))
    simp only [portsLoop, List.foldl_cons] at h ⊢
    rw [h]
    simp [insertAll]

theorem addressesLoop_eq (url sname : String) (subset : EndpointSubset)
    (insts : List ServiceInstance) (m : instanceMap) :
    addressesLoop url sname subset (insts, m) =
      (insts ++ subsetInstances url sname subset,
       insertAll m (subsetInstances url sname subset)) := by
  unfold addressesLoop subsetInstances
  generalize subset.Addresses = addrs
  induction addrs generalizing insts m with
  | nil => simp [insertAll]
  | cons a rest ih =>
    simp only [List.foldl_cons, portsLoop_eq, ih, List.flatMap_cons, List.append_assoc,
      insertAll_append]

theorem subsetsLoop_nil (url sname : String)
    (st : serviceMap × instanceMap × List ServiceInstance) :
    subsetsLoop url sname [] st = st := rfl

theorem subsetsLoop_cons (url sname : String) (subset : EndpointSubset)
    (rest : List EndpointSubset) (sv : serviceMap) (m : instanceMap)
    (insts : List ServiceInstance) :
    subsetsLoop url sname (subset :: rest) (sv, m, insts) =
      (sv.insert sname (insts ++ (subset :: rest).flatMap (subsetInstances url sname)),
       insertAll m ((subset :: rest).flatMap (subsetInstances url sname)),
       insts ++ (subset :: rest).flatMap (subsetInstances url sname)) := by
  induction rest generalizing subset sv m insts with
  | nil => simp [subsetsLoop, addressesLoop_eq]
  | cons next rest ih =>
    have h := ih next (sv.insert sname (insts ++ subsetInstances url sname subset))
      (insertAll m (subsetInstances url sname subset))
      (insts ++ subsetInstances url sname subset)
    simp only [subsetsLoop, List.foldl_cons, addressesLoop_eq] at h ⊢
    rw [h]
    simp [AList.insert_insert, insertAll_append]

theorem itemsLoop_eq (url : String) (items : List Endpoints) (sv : serviceMap)
    (m : instanceMap) :
    itemsLoop url items (sv, m) =
      (insertEntries url sv items, insertAll m (generatedInstances url items)) := by
  induction items generalizing sv m with
  | nil => simp [itemsLoop, insertEntries, generatedInstances, insertAll]
  | cons e rest ih =>
    have step : itemsLoop url (e :: rest) (sv, m) =
        itemsLoop url rest
          ((subsetsLoop url e.ObjectMeta.Name e.Subsets (sv, m, [])).1,
           (subsetsLoop url e.ObjectMeta.Name e.Subsets (sv, m, [])).2.1) := by
      simp [itemsLoop]
    rw [step, ih]
    cases hs : e.Subsets with
    | nil =>
      simp [subsetsLoop_nil, insertEntries, generatedInstances, entryInstances, hs, insertAll]
    | cons s ss =>
      rw [subsetsLoop_cons]
      simp [insertEntries, generatedInstances, entryInstances, hs, insertAll_append]


theorem insertAll_snoc (m : instanceMap) (l : List ServiceInstance) (x : ServiceInstance) :
    insertAll m (l ++ [x]) = (insertAll m l).insert x.ID x := by
  simp [insertAll, List.foldl_append]

theorem mem_insertAll (m : instanceMap) (l : List ServiceInstance) (k : String) :
    k ∈ insertAll m l ↔ k ∈ m ∨ ∃ x ∈ l, x.ID = k := by
  induction l using List.reverseRecOn with
  | nil => simp [insertAll]
  | append_singleton l x ih =>
    rw [insertAll_snoc, AList.mem_insert, ih]
    constructor
    · rintro (h | h | ⟨y, hy, hk⟩)
      · exact Or.inr ⟨x, by simp, h.symm⟩
      · exact Or.inl h
      · exact Or.inr ⟨y, by simp [hy], hk⟩
    · rintro (h | ⟨y, hy, hk⟩)
      · exact Or.inr (Or.inl h)
      · rcases List.mem_append.mp hy with hy | hy
        · exact Or.inr (Or.inr ⟨y, hy, hk⟩)
        · simp at hy; subst hy; exact Or.inl hk.symm

theorem lookup_insertAll_of_nodup (m : instanceMap) (l : List ServiceInstance)
    (hnd : (l.map (fun inst => inst.ID)).Nodup) (x : ServiceInstance) (hx : x ∈ l) :
    (insertAll m l).lookup x.ID = some x := by
  induction l using List.reverseRecOn with
  | nil => simp at hx
  | append_singleton l y ih =>
    rw [insertAll_snoc]
    rw [List.map_append, List.nodup_append] at hnd
    obtain ⟨hl, _, hdisj⟩ := hnd
    rcases List.mem_append.mp hx with hx | hx
    · have hne : x.ID ≠ y.ID := by
        intro heq
        exact hdisj (List.mem_map.mpr ⟨x, hx, rfl⟩) (by simp [heq])
      rw [AList.lookup_insert_ne hne]
      exact ih hl hx
    · simp at hx; subst hx
      exact AList.lookup_insert _

theorem lookup_insertAll_some (m : instanceMap) (l : List ServiceInstance) (k : String)
    (r : ServiceInstance) (h : (insertAll m l).lookup k = some r) :
    (r ∈ l ∧ r.ID = k) ∨ m.lookup k = some r := by
  induction l using List.reverseRecOn with
  | nil => exact Or.inr (by simpa [insertAll] using h)
  | append_singleton l y ih =>
    rw [insertAll_snoc] at h
    by_cases hk : k = y.ID
    · subst hk
      rw [AList.lookup_insert] at h
      cases h
      exact Or.inl ⟨by simp, rfl⟩
    · rw [AList.lookup_insert_ne hk] at h
      rcases ih h with ⟨hr, hid⟩ | hm
      · exact Or.inl ⟨by simp [hr], hid⟩
      · exact Or.inr hm

theorem insertEntries_snoc (url : String) (sv : serviceMap) (items : List Endpoints)
    (e : Endpoints) :
    insertEntries url sv (items ++ [e]) =
      if e.Subsets = [] then insertEntries url sv items
      else (insertEntries url sv items).insert e.ObjectMeta.Name (entryInstances url e) := by
  simp [insertEntries, List.foldl_append]

theorem lookup_insertEntries_some (url : String) (sv : serviceMap) (items : List Endpoints)
    (n : String) (l : List ServiceInstance) (h : (insertEntries url sv items).lookup n = some l) :
    (∃ e ∈ items, e.ObjectMeta.Name = n ∧ e.Subsets ≠ [] ∧ l = entryInstances url e) ∨
      sv.lookup n = some l := by
  induction items using List.reverseRecOn with
  | nil => exact Or.inr (by simpa [insertEntries] using h)
  | append_singleton items e ih =>
    rw [insertEntries_snoc] at h
    by_cases hs : e.Subsets = []
    · rw [if_pos hs] at h
      rcases ih h with ⟨e', he', hrest⟩ | hm
      · exact Or.inl ⟨e', by simp [he'], hrest⟩
      · exact Or.inr hm
    · rw [if_neg hs] at h
      by_cases hn : n = e.ObjectMeta.Name
      · subst hn
        rw [AList.lookup_insert] at h
        cases h
        exact Or.inl ⟨e, by simp, rfl, hs, rfl⟩
      · rw [AList.lookup_insert_ne hn] at h
        rcases ih h with ⟨e', he', hrest⟩ | hm
        · exact Or.inl ⟨e', by simp [he'], hrest⟩
        · exact Or.inr hm

theorem lookup_insertEntries_of_nodup (url : String) (sv : serviceMap) (items : List Endpoints)
    (hnd : (items.map (fun endpoints => endpoints.ObjectMeta.Name)).Nodup)
    (e : Endpoints) (he : e ∈ items) (hs : e.Subsets ≠ []) :
    (insertEntries url sv items).lookup e.ObjectMeta.Name = some (entryInstances url e) := by
  induction items using List.reverseRecOn with
  | nil => simp at he
  | append_singleton items y ih =>
    rw [insertEntries_snoc]
    rw [List.map_append, List.nodup_append] at hnd
    obtain ⟨hl, _, hdisj⟩ := hnd
    rcases List.mem_append.mp he with he | he
    · have hne : e.ObjectMeta.Name ≠ y.ObjectMeta.Name := by
        intro heq
        exact hdisj (List.mem_map.mpr ⟨e, he, rfl⟩) (by simp [heq])
      by_cases hy : y.Subsets = []
      · rw [if_pos hy]; exact ih hl he
      · rw [if_neg hy, AList.lookup_insert_ne hne]; exact ih hl he
    · simp at he; subst he
      rw [if_neg hs]
      exact AList.lookup_insert _

theorem mem_subsetInstances (url sname : String) (subset : EndpointSubset)
    (x : ServiceInstance) :
    x ∈ subsetInstances url sname subset ↔
      ∃ a ∈ subset.Addresses, ∃ p ∈ subset.Ports, x = newInstance url sname a p := by
  simp only [subsetInstances, List.mem_flatMap, List.mem_map]
  constructor
  · rintro ⟨a, ha, p, hp, rfl⟩; exact ⟨a, ha, p, hp, rfl⟩
  · rintro ⟨a, ha, p, hp, rfl⟩; exact ⟨a, ha, p, hp, rfl⟩

theorem mem_entryInstances (url : String) (e : Endpoints) (x : ServiceInstance) :
    x ∈ entryInstances url e ↔
      ∃ s ∈ e.Subsets, ∃ a ∈ s.Addresses, ∃ p ∈ s.Ports,
        x = newInstance url e.ObjectMeta.Name a p := by
  simp only [entryInstances, List.mem_flatMap, mem_subsetInstances]

theorem mem_generatedInstances (url : String) (items : List Endpoints) (x : ServiceInstance) :
    x ∈ generatedInstances url items ↔ ∃ e ∈ items, x ∈ entryInstances url e := by
  simp only [generatedInstances, List.mem_flatMap]

theorem serviceName_of_mem_entryInstances (url : String) (e : Endpoints) (x : ServiceInstance)
    (hx : x ∈ entryInstances url e) : x.ServiceName = e.ObjectMeta.Name := by
  obtain ⟨s, _, a, _, p, _, rfl⟩ := (mem_entryInstances url e x).mp hx
  rfl

theorem subsets_ne_nil_of_mem_entryInstances (url : String) (e : Endpoints)
    (x : ServiceInstance) (hx : x ∈ entryInstances url e) : e.Subsets ≠ [] := by
  obtain ⟨s, hs, _⟩ := (mem_entryInstances url e x).mp hx
  exact List.ne_nil_of_mem hs

theorem getServices_ok (kc : k8sCatalog) (endpointsList : EndpointsList) :
    (getServices kc (Except.ok endpointsList)).services =
        insertEntries (kc.client.getEndpointsURL kc.namespace_) ∅ endpointsList.Items ∧
    (getServices kc (Except.ok endpointsList)).instances =
        insertAll ∅ (generatedInstances (kc.client.getEndpointsURL kc.namespace_)
          endpointsList.Items) ∧
    (getServices kc (Except.ok endpointsList)).err = none ∧
    (getServices kc (Except.ok endpointsList)).kc = kc := by
  simp [getServices, itemsLoop_eq]


theorem listServices_foldl (predicate : Predicate)
    (entries : List (Sigma (fun _ : String => List ServiceInstance))) (acc : List Service) :
    entries.foldl
        (fun serviceCollection e => listServicesInner predicate e.1 e.2 serviceCollection) acc =
      acc ++ (entries.filter (fun e => e.2.any (accepts predicate))).map
        (fun e => ({ ServiceName := e.1 } : Service)) := by
  induction entries generalizing acc with
  | nil => simp
  | cons e rest ih =>
    rw [List.foldl_cons, ih, listServicesInner_eq]
    by_cases h : e.2.any (accepts predicate) = true
    · simp [h, List.filter_cons]
    · simp [h, List.filter_cons]

theorem ListServices_eq (kc : k8sCatalog) (predicate : Predicate) :
    ListServices kc predicate =
      (kc.services.entries.filter (fun e => e.2.any (accepts predicate))).map
        (fun e => ({ ServiceName := e.1 } : Service)) := by
  simp [ListServices, listServices_foldl]

theorem mem_ListServices (kc : k8sCatalog) (predicate : Predicate) (n : String) :
    ({ ServiceName := n } : Service) ∈ ListServices kc predicate ↔
      ∃ l, kc.services.lookup n = some l ∧ ∃ inst ∈ l, accepts predicate inst = true := by
  rw [ListServices_eq]
  simp only [List.mem_map, List.mem_filter, List.any_eq_true]
  constructor
  · rintro ⟨⟨k, l⟩, ⟨hmem, hany⟩, hk⟩
    have hkn : k = n := by simpa using hk
    subst hkn
    exact ⟨l, AList.mem_lookup_iff.mpr hmem, hany⟩
  · rintro ⟨l, hl, hany⟩
    exact ⟨⟨n, l⟩, ⟨AList.mem_lookup_iff.mp hl, hany⟩, rfl⟩

theorem ListServices_names_nodup (kc : k8sCatalog) (predicate : Predicate) :
    ((ListServices kc predicate).map (fun s => s.ServiceName)).Nodup := by
  rw [ListServices_eq, List.map_map]
  have hsub : ((kc.services.entries.filter (fun e => e.2.any (accepts predicate))).map
      ((fun s : Service => s.ServiceName) ∘ fun e => ({ ServiceName := e.1 } : Service))).Sublist
      kc.services.keys := by
    have : ((fun s : Service => s.ServiceName) ∘
        fun e : Sigma (fun _ : String => List ServiceInstance) =>
          ({ ServiceName := e.1 } : Service)) = Sigma.fst := by
      funext e; rfl
    rw [this]
    exact (List.filter_sublist _).map _
  exact hsub.nodup kc.services.keys_nodup


/-! ## The claims -/

/-- C1: for every catalog state and every argument, `Register`, `Deregister`, `Renew`
and `SetStatus` each return an error of kind `ErrorBadRequest`, `Register` returns
no instance, and both maps of the index are the same after the call as before. -/
theorem mutations_rejected_index_unchanged (kc : k8sCatalog) (si : Option ServiceInstance)
    (instanceID status : String) :
    ((Register kc si).2.2.map (fun e => e.Code) = some ErrorCode.ErrorBadRequest ∧
      (Register kc si).2.1 = none ∧
      (Register kc si).1.services = kc.services ∧
      (Register kc si).1.instances = kc.instances) ∧
    ((Deregister kc instanceID).2.map (fun e => e.Code) = some ErrorCode.ErrorBadRequest ∧
      (Deregister kc instanceID).1.services = kc.services ∧
      (Deregister kc instanceID).1.instances = kc.instances) ∧
    ((Renew kc instanceID).2.map (fun e => e.Code) = some ErrorCode.ErrorBadRequest ∧
      (Renew kc instanceID).1.services = kc.services ∧
      (Renew kc instanceID).1.instances = kc.instances) ∧
    ((SetStatus kc instanceID status).2.map (fun e => e.Code) = some ErrorCode.ErrorBadRequest ∧
      (SetStatus kc instanceID status).1.services = kc.services ∧
      (SetStatus kc instanceID status).1.instances = kc.instances) :=
  ⟨⟨rfl, rfl, rfl, rfl⟩, ⟨rfl, rfl, rfl⟩, ⟨rfl, rfl, rfl⟩, ⟨rfl, rfl, rfl⟩⟩

/-- C2: when the directory call made by `refresh` fails, `refresh` leaves both maps
exactly as they were, so `ListServices`, `List` and `Instance` return after the failed
refresh exactly what they returned before it (no error of the failure reaches them);
after a successful refresh followed by a failed one the index is still the one built
from the endpoints of the successful refresh. -/
theorem refresh_failure_keeps_index (kc : k8sCatalog) (err : String) :
    (refresh kc (Except.error err)).services = kc.services ∧
    (refresh kc (Except.error err)).instances = kc.instances ∧
    (∀ predicate, ListServices (refresh kc (Except.error err)) predicate =
      ListServices kc predicate) ∧
    (∀ serviceName predicate, List_ (refresh kc (Except.error err)) serviceName predicate =
      List_ kc serviceName predicate) ∧
    (∀ instanceID, Instance (refresh kc (Except.error err)) instanceID =
      Instance kc instanceID) ∧
    (∀ endpointsList,
      (refresh (refresh kc (Except.ok endpointsList)) (Except.error err)).services =
          (getServices kc (Except.ok endpointsList)).services ∧
      (refresh (refresh kc (Except.ok endpointsList)) (Except.error err)).instances =
          (getServices kc (Except.ok endpointsList)).instances) :=
  ⟨rfl, rfl, fun _ => rfl, fun _ _ => rfl, fun _ => rfl, fun _ => ⟨rfl, rfl⟩⟩


theorem refresh_ok_index (kc : k8sCatalog) (endpointsList : EndpointsList) :
    (refresh kc (Except.ok endpointsList)).services =
        (getServices kc (Except.ok endpointsList)).services ∧
    (refresh kc (Except.ok endpointsList)).instances =
        (getServices kc (Except.ok endpointsList)).instances := by
  simp [refresh, getServices]

theorem not_mem_empty_serviceMap (n : String) (l : List ServiceInstance) :
    (∅ : serviceMap).lookup n ≠ some l := by
  simp

theorem not_mem_empty_instanceMap (k : String) (r : ServiceInstance) :
    (∅ : instanceMap).lookup k ≠ some r := by
  simp

/-- C3 (as stated, refuted): in the index built from `dnsSnapshot`, where one address
serves port 53 over UDP and over TCP, the UDP instance of the `kube-dns` list is not
stored in `instances` under its ID with an identical record. -/
theorem getServices_dns_not_consistent :
    ¬ Consistent (getServices emptyCatalog (Except.ok dnsSnapshot)).services
        (getServices emptyCatalog (Except.ok dnsSnapshot)).instances := by
  intro h
  have h1 := h.1 "kube-dns"
    [newInstance (exampleClient.getEndpointsURL "default") "kube-dns"
        { IP := "10.0.0.10", TargetRef := some { UID := "abc" } }
        { Port := 53, Protocol := ProtocolUDP },
     newInstance (exampleClient.getEndpointsURL "default") "kube-dns"
        { IP := "10.0.0.10", TargetRef := some { UID := "abc" } }
        { Port := 53, Protocol := ProtocolTCP }]
    (newInstance (exampleClient.getEndpointsURL "default") "kube-dns"
        { IP := "10.0.0.10", TargetRef := some { UID := "abc" } }
        { Port := 53, Protocol := ProtocolUDP })
    (by rfl) (by simp)
  revert h1
  decide

/-- C3 (amended): in the index built by `getServices` from any endpoint list, each
member of a `services` list has its ID as a key of `instances`, and is stored there
with an identical record when the generated instance IDs of the snapshot are pairwise
distinct; every record of `instances` is in the `services` list of its service name
when the entries of the snapshot have pairwise distinct names. -/
theorem getServices_index_consistent (kc : k8sCatalog) (endpointsList : EndpointsList) :
    (∀ n l x, (getServices kc (Except.ok endpointsList)).services.lookup n = some l → x ∈ l →
      x.ID ∈ (getServices kc (Except.ok endpointsList)).instances ∧
      (DistinctIDs (kc.client.getEndpointsURL kc.namespace_) endpointsList →
        (getServices kc (Except.ok endpointsList)).instances.lookup x.ID = some x)) ∧
    (DistinctNames endpointsList →
      ∀ k r, (getServices kc (Except.ok endpointsList)).instances.lookup k = some r →
        ∃ l, (getServices kc (Except.ok endpointsList)).services.lookup r.ServiceName = some l ∧
          r ∈ l) := by
  obtain ⟨hsv, hm, _, _⟩ := getServices_ok kc endpointsList
  rw [hsv, hm]
  constructor
  · intro n l x hl hx
    rcases lookup_insertEntries_some _ _ _ _ _ hl with ⟨e, he, _, _, hle⟩ | hempty
    · have hgen : x ∈ generatedInstances (kc.client.getEndpointsURL kc.namespace_)
          endpointsList.Items :=
        (mem_generatedInstances _ _ _).mpr ⟨e, he, hle ▸ hx⟩
      exact ⟨(mem_insertAll _ _ _).mpr (Or.inr ⟨x, hgen, rfl⟩),
        fun hnd => lookup_insertAll_of_nodup _ _ hnd x hgen⟩
    · exact absurd hempty (not_mem_empty_serviceMap n l)
  · intro hnd k r hr
    rcases lookup_insertAll_some _ _ _ _ hr with ⟨hgen, _⟩ | hempty
    · obtain ⟨e, he, hre⟩ := (mem_generatedInstances _ _ _).mp hgen
      refine ⟨entryInstances (kc.client.getEndpointsURL kc.namespace_) e, ?_, hre⟩
      rw [serviceName_of_mem_entryInstances _ e r hre]
      exact lookup_insertEntries_of_nodup _ _ _ hnd e he
        (subsets_ne_nil_of_mem_entryInstances _ e r hre)
    · exact absurd hempty (not_mem_empty_instanceMap k r)

/-- Witness of C3 (amended) on the scenario snapshot: both hypotheses hold there and
the `web` instance is stored under `abc-8080` and listed under `web`. -/
theorem getServices_index_consistent_witness :
    DistinctIDs (emptyCatalog.client.getEndpointsURL emptyCatalog.namespace_) webSnapshot ∧
    DistinctNames webSnapshot ∧
    (getServices emptyCatalog (Except.ok webSnapshot)).instances.lookup webInstance.ID =
      some webInstance ∧
    (∃ l, (getServices emptyCatalog (Except.ok webSnapshot)).services.lookup
        webInstance.ServiceName = some l ∧ webInstance ∈ l) :=
  ⟨by decide, by decide,
   ((getServices_index_consistent emptyCatalog webSnapshot).1 "web" [webInstance] webInstance
      (by rfl) (by simp)).2 (by decide),
   (getServices_index_consistent emptyCatalog webSnapshot).2 (by decide) "abc-8080" webInstance
      (by rfl)⟩


/-- C4: for every index, service name and predicate (nil or not), `List` fails if and
only if the service name is not a key of `services`, every failure is of kind
`ErrorNoSuchServiceName`, and for a known service and a predicate that accepts none of
its instances `List` succeeds with the empty sequence. -/
theorem List_fails_iff_unknown_service (kc : k8sCatalog) (serviceName : String)
    (predicate : Predicate) :
    ((∃ e, List_ kc serviceName predicate = Except.error e) ↔ serviceName ∉ kc.services) ∧
    (∀ e, List_ kc serviceName predicate = Except.error e →
      e.Code = ErrorCode.ErrorNoSuchServiceName) ∧
    (∀ service, kc.services.lookup serviceName = some service →
      (∀ inst ∈ service, accepts predicate inst = false) →
      List_ kc serviceName predicate = Except.ok []) := by
  refine ⟨?_, ?_, ?_⟩
  · rw [← AList.lookup_eq_none]
    cases h : kc.services.lookup serviceName with
    | none => simp [List_, h]
    | some service => simp [List_, h]
  · intro e he
    cases h : kc.services.lookup serviceName with
    | none =>
      simp only [List_, h] at he
      cases he
      rfl
    | some service => simp [List_, h] at he
  · intro service h hnone
    simp only [List_, h, listLoop_eq, List.nil_append]
    congr 1
    exact List.filter_eq_nil_iff.mpr (fun inst hinst => by simp [hnone inst hinst])

/-- Witness of C4: in the scenario catalog, `List` of the known service `web` with a
predicate that accepts nothing is the empty sequence, and `List` of an unknown name
fails. -/
theorem List_fails_iff_unknown_service_witness :
    List_ webCatalog "web" (some (fun _ => false)) = Except.ok [] ∧
    (∃ e, List_ webCatalog "nonexistent" none = Except.error e) :=
  ⟨(List_fails_iff_unknown_service webCatalog "web" (some (fun _ => false))).2.2
      [webInstance] (by rfl) (by intro inst _; rfl),
   (List_fails_iff_unknown_service webCatalog "nonexistent" none).1.mpr (by decide)⟩

/-- C5: for every index, every service name that is a key of `services` and every
predicate, `List` returns, in the order of the stored list, exactly the stored
instances the predicate accepts, each equal to the stored record; with the nil
predicate it returns the whole stored list. -/
theorem List_returns_accepted_in_order (kc : k8sCatalog) (serviceName : String)
    (service : List ServiceInstance) (h : kc.services.lookup serviceName = some service) :
    (∀ p : ServiceInstance → Bool,
      List_ kc serviceName (some p) = Except.ok (service.filter p)) ∧
    List_ kc serviceName none = Except.ok service := by
  constructor
  · intro p
    simp only [List_, h, listLoop_eq, List.nil_append]
    rfl
  · simp only [List_, h, listLoop_eq, List.nil_append]
    congr 1
    exact List.filter_eq_self.mpr (fun _ _ => rfl)

/-- Witness of C5: in the scenario catalog `List` of `web` is the one stored instance. -/
theorem List_returns_accepted_in_order_witness :
    webCatalog.services.lookup "web" = some [webInstance] ∧
    List_ webCatalog "web" none = Except.ok [webInstance] :=
  ⟨by rfl, (List_returns_accepted_in_order webCatalog "web" [webInstance] (by rfl)).2⟩

/-- C6: for every index and every instance ID, `Instance` succeeds with a record equal
to the stored one when the ID is a key of `instances`, and it fails, with an error of
kind `ErrorNoSuchServiceInstance`, if and only if the ID is not a key. -/
theorem Instance_returns_stored_or_fails (kc : k8sCatalog) (instanceID : String) :
    (∀ inst, kc.instances.lookup instanceID = some inst →
      Instance kc instanceID = Except.ok inst) ∧
    ((∃ e, Instance kc instanceID = Except.error e) ↔ instanceID ∉ kc.instances) ∧
    (∀ e, Instance kc instanceID = Except.error e →
      e.Code = ErrorCode.ErrorNoSuchServiceInstance) := by
  refine ⟨?_, ?_, ?_⟩
  · intro inst h
    simp [Instance, h, DeepClone_eq]
  · rw [← AList.lookup_eq_none]
    cases h : kc.instances.lookup instanceID with
    | none => simp [Instance, h]
    | some inst => simp [Instance, h]
  · intro e he
    cases h : kc.instances.lookup instanceID with
    | none =>
      simp only [Instance, h] at he
      cases he
      rfl
    | some inst => simp [Instance, h] at he

/-- Witness of C6: in the scenario catalog `Instance` of `abc-8080` is the record
stored there and `Instance` of `zzz` fails. -/
theorem Instance_returns_stored_or_fails_witness :
    Instance webCatalog "abc-8080" = Except.ok webInstance ∧
    (∃ e, Instance webCatalog "zzz" = Except.error e) :=
  ⟨(Instance_returns_stored_or_fails webCatalog "abc-8080").1 webInstance (by rfl),
   (Instance_returns_stored_or_fails webCatalog "zzz").2.1.mpr (by decide)⟩


/-- C7 (as stated, refuted): in the catalog refreshed from `pendingSnapshot` the name
`web` is a key of `services`, with an empty instance list, and `ListServices` with
the nil predicate does not return it. -/
theorem ListServices_nil_omits_empty_service :
    ¬ (({ ServiceName := "web" } : Service) ∈ ListServices pendingCatalog none ↔
        "web" ∈ pendingCatalog.services) := by
  decide

/-- C7 (amended): for every index, `ListServices` with the nil predicate returns a
service named `n` if and only if `n` is a key of `services` whose instance list is
not empty. -/
theorem ListServices_nil_iff_nonempty (kc : k8sCatalog) (n : String) :
    ({ ServiceName := n } : Service) ∈ ListServices kc none ↔
      ∃ l, kc.services.lookup n = some l ∧ l ≠ [] := by
  rw [mem_ListServices]
  constructor
  · rintro ⟨l, hl, inst, hinst, _⟩
    exact ⟨l, hl, List.ne_nil_of_mem hinst⟩
  · rintro ⟨l, hl, hne⟩
    obtain ⟨inst, hinst⟩ := List.exists_mem_of_ne_nil l hne
    exact ⟨l, hl, inst, hinst, rfl⟩

/-- C8: for every index and every non-nil predicate `p`, `ListServices` returns a
service named `n` if and only if `n` is a key of `services` and `p` holds for at
least one instance of its list, and no service name is returned more than once. -/
theorem ListServices_predicate_iff_some_match (kc : k8sCatalog) (p : ServiceInstance → Bool)
    (n : String) :
    (({ ServiceName := n } : Service) ∈ ListServices kc (some p) ↔
      n ∈ kc.services ∧ ∃ l, kc.services.lookup n = some l ∧ ∃ inst ∈ l, p inst = true) ∧
    ((ListServices kc (some p)).map (fun s => s.ServiceName)).Nodup ∧
    (ListServices kc (some p)).Nodup := by
  refine ⟨?_, ListServices_names_nodup kc (some p), ?_⟩
  · rw [mem_ListServices]
    constructor
    · rintro ⟨l, hl, hex⟩
      refine ⟨?_, l, hl, hex⟩
      rw [← AList.lookup_isSome, hl]
      rfl
    · rintro ⟨_, l, hl, hex⟩
      exact ⟨l, hl, hex⟩
  · exact List.Nodup.of_map _ (ListServices_names_nodup kc (some p))


/-- C9: for every directory entry named `n` and every address `a` and port `p` of one
of its subsets, the instance `getServices` builds has service name `n`, endpoint value
`a.IP`, a colon and the port in decimal, endpoint type `tcp` for the TCP protocol and
`udp` for the UDP protocol, and as ID the UID of the target reference (or `a.IP` when
there is none), a dash and the port in decimal; its ID is a key of the built
`instances`, it is the record stored there when the generated IDs are pairwise
distinct, and it is in the `services` list of `n` when the entry names are pairwise
distinct.  For the entry `web`, address `10.0.0.5` with target reference `abc` and port
8080 over TCP the built index holds exactly the instance with ID `abc-8080` whose
transport is `tcp` and whose dial target is `10.0.0.5:8080`. -/
theorem getServices_builds_instance :
    (∀ (kc : k8sCatalog) (endpointsList : EndpointsList) (e : Endpoints) (s : EndpointSubset)
        (a : EndpointAddress) (p : EndpointPort),
      e ∈ endpointsList.Items → s ∈ e.Subsets → a ∈ s.Addresses → p ∈ s.Ports →
      (newInstance (kc.client.getEndpointsURL kc.namespace_) e.ObjectMeta.Name a p).ServiceName =
          e.ObjectMeta.Name ∧
      (newInstance (kc.client.getEndpointsURL kc.namespace_) e.ObjectMeta.Name a p).Endpoint.Value =
          a.IP ++ ":" ++ fmtD p.Port ∧
      (p.Protocol = ProtocolTCP →
        (newInstance (kc.client.getEndpointsURL kc.namespace_) e.ObjectMeta.Name a
          p).Endpoint.Type_ = "tcp") ∧
      (p.Protocol = ProtocolUDP →
        (newInstance (kc.client.getEndpointsURL kc.namespace_) e.ObjectMeta.Name a
          p).Endpoint.Type_ = "udp") ∧
      (newInstance (kc.client.getEndpointsURL kc.namespace_) e.ObjectMeta.Name a p).ID =
          (match a.TargetRef with
            | some ref => ref.UID
            | none => a.IP) ++ "-" ++ fmtD p.Port ∧
      (newInstance (kc.client.getEndpointsURL kc.namespace_) e.ObjectMeta.Name a p).ID ∈
          (getServices kc (Except.ok endpointsList)).instances ∧
      (DistinctIDs (kc.client.getEndpointsURL kc.namespace_) endpointsList →
        (getServices kc (Except.ok endpointsList)).instances.lookup
            (newInstance (kc.client.getEndpointsURL kc.namespace_) e.ObjectMeta.Name a p).ID =
          some (newInstance (kc.client.getEndpointsURL kc.namespace_) e.ObjectMeta.Name a p)) ∧
      (DistinctNames endpointsList →
        ∃ l, (getServices kc (Except.ok endpointsList)).services.lookup e.ObjectMeta.Name =
            some l ∧
          newInstance (kc.client.getEndpointsURL kc.namespace_) e.ObjectMeta.Name a p ∈ l)) ∧
    (fmtD 8080 = "8080" ∧
      (getServices emptyCatalog (Except.ok webSnapshot)).services.lookup "web" =
        some [webInstance] ∧
      (getServices emptyCatalog (Except.ok webSnapshot)).instances.lookup "abc-8080" =
        some webInstance ∧
      webInstance.ID = "abc-8080" ∧
      webInstance.Endpoint = { Type_ := "tcp", Value := "10.0.0.5:8080" }) := by
  refine ⟨?_, by decide, by rfl, by rfl, rfl, rfl⟩
  intro kc endpointsList e s a p he hs ha hp
  obtain ⟨hsv, hm, _, _⟩ := getServices_ok kc endpointsList
  have hentry : newInstance (kc.client.getEndpointsURL kc.namespace_) e.ObjectMeta.Name a p ∈
      entryInstances (kc.client.getEndpointsURL kc.namespace_) e :=
    (mem_entryInstances _ e _).mpr ⟨s, hs, a, ha, p, hp, rfl⟩
  have hgen : newInstance (kc.client.getEndpointsURL kc.namespace_) e.ObjectMeta.Name a p ∈
      generatedInstances (kc.client.getEndpointsURL kc.namespace_) endpointsList.Items :=
    (mem_generatedInstances _ _ _).mpr ⟨e, he, hentry⟩
  refine ⟨rfl, rfl, ?_, ?_, ?_, ?_, ?_, ?_⟩
  · intro hproto
    simp [newInstance, hproto]
  · intro hproto
    simp [newInstance, hproto]
  · cases hrefc : a.TargetRef <;> simp [newInstance, hrefc]
  · rw [hm]
    exact (mem_insertAll _ _ _).mpr (Or.inr ⟨_, hgen, rfl⟩)
  · intro hnd
    rw [hm]
    exact lookup_insertAll_of_nodup _ _ hnd _ hgen
  · intro hnd
    rw [hsv]
    exact ⟨_, lookup_insertEntries_of_nodup _ _ _ hnd e he (List.ne_nil_of_mem hs), hentry⟩

/-- Witness of C9 on the scenario snapshot: the instance built for the `web` address
and port is the expected one and is the record stored under `abc-8080`. -/
theorem getServices_builds_instance_witness :
    newInstance (emptyCatalog.client.getEndpointsURL emptyCatalog.namespace_) "web" webAddress
        webPort = webInstance ∧
    (getServices emptyCatalog (Except.ok webSnapshot)).instances.lookup
        (newInstance (emptyCatalog.client.getEndpointsURL emptyCatalog.namespace_) "web"
          webAddress webPort).ID =
      some (newInstance (emptyCatalog.client.getEndpointsURL emptyCatalog.namespace_) "web"
        webAddress webPort) :=
  ⟨by decide,
   (getServices_builds_instance.1 emptyCatalog webSnapshot
      { ObjectMeta := { Name := "web" }
        Subsets := [{ Addresses := [webAddress], Ports := [webPort] }] }
      { Addresses := [webAddress], Ports := [webPort] } webAddress webPort
      (by decide) (by decide) (by decide) (by decide)).2.2.2.2.2.2.1 (by decide)⟩

/-- C10: for every prior index, when the directory call made by `refresh` succeeds,
`refresh` installs as `services` and `instances` exactly the pair `getServices` builds
from the returned endpoints; the installed pair is the same whatever the previous maps
were, every key of the new `services` is the name of an entry of the snapshot that has
a subset, and every record of the new `instances` is an instance generated from the
snapshot, stored under its own ID. -/
theorem refresh_success_replaces_index (kc : k8sCatalog) (endpointsList : EndpointsList) :
    ((refresh kc (Except.ok endpointsList)).services =
        (getServices kc (Except.ok endpointsList)).services ∧
      (refresh kc (Except.ok endpointsList)).instances =
        (getServices kc (Except.ok endpointsList)).instances) ∧
    (∀ (sv : serviceMap) (m : instanceMap),
      (refresh { kc with services := sv, instances := m } (Except.ok endpointsList)).services =
          (refresh kc (Except.ok endpointsList)).services ∧
      (refresh { kc with services := sv, instances := m } (Except.ok endpointsList)).instances =
          (refresh kc (Except.ok endpointsList)).instances) ∧
    (∀ n, n ∈ (refresh kc (Except.ok endpointsList)).services →
      ∃ e ∈ endpointsList.Items, e.ObjectMeta.Name = n ∧ e.Subsets ≠ []) ∧
    (∀ k r, (refresh kc (Except.ok endpointsList)).instances.lookup k = some r →
      r ∈ generatedInstances (kc.client.getEndpointsURL kc.namespace_) endpointsList.Items ∧
        r.ID = k) := by
  obtain ⟨hsv, hm, _, _⟩ := getServices_ok kc endpointsList
  obtain ⟨hrs, hri⟩ := refresh_ok_index kc endpointsList
  refine ⟨⟨hrs, hri⟩, ?_, ?_, ?_⟩
  · intro sv m
    exact ⟨rfl, rfl⟩
  · intro n hn
    rw [hrs, hsv, ← AList.lookup_isSome, Option.isSome_iff_exists] at hn
    obtain ⟨l, hl⟩ := hn
    rcases lookup_insertEntries_some _ _ _ _ _ hl with ⟨e, he, hname, hsub, _⟩ | hempty
    · exact ⟨e, he, hname, hsub⟩
    · exact absurd hempty (not_mem_empty_serviceMap n l)
  · intro k r hr
    rw [hri, hm] at hr
    rcases lookup_insertAll_some _ _ _ _ hr with h | hempty
    · exact h
    · exact absurd hempty (not_mem_empty_instanceMap k r)

/-- Witness of C10: refreshing the scenario catalog from `dnsSnapshot` leaves no trace
of `web`; the only service is `kube-dns`. -/
theorem refresh_success_replaces_index_witness :
    "web" ∈ webCatalog.services ∧
    "web" ∉ (refresh webCatalog (Except.ok dnsSnapshot)).services ∧
    (∃ e ∈ dnsSnapshot.Items, e.ObjectMeta.Name = "kube-dns" ∧ e.Subsets ≠ []) :=
  ⟨by decide, by decide,
   (refresh_success_replaces_index webCatalog dnsSnapshot).2.2.1 "kube-dns" (by decide)⟩

/-! ## Further lemmas about the built index -/

theorem mem_entry_of_services_lookup (kc : k8sCatalog) (endpointsList : EndpointsList)
    (n : String) (l : List ServiceInstance)
    (hl : (getServices kc (Except.ok endpointsList)).services.lookup n = some l) :
    ∃ e ∈ endpointsList.Items, e.ObjectMeta.Name = n ∧ e.Subsets ≠ [] ∧
      l = entryInstances (kc.client.getEndpointsURL kc.namespace_) e := by
  rw [(getServices_ok kc endpointsList).1] at hl
  rcases lookup_insertEntries_some _ _ _ _ _ hl with h | hempty
  · exact h
  · exact absurd hempty (by simp)

theorem generated_of_instances_lookup (kc : k8sCatalog) (endpointsList : EndpointsList)
    (k : String) (r : ServiceInstance)
    (hr : (getServices kc (Except.ok endpointsList)).instances.lookup k = some r) :
    r ∈ generatedInstances (kc.client.getEndpointsURL kc.namespace_) endpointsList.Items ∧
      r.ID = k := by
  rw [(getServices_ok kc endpointsList).2.1] at hr
  rcases lookup_insertAll_some _ _ _ _ hr with h | hempty
  · exact h
  · exact absurd hempty (by simp)

theorem generated_cases (url : String) (items : List Endpoints) (x : ServiceInstance)
    (hx : x ∈ generatedInstances url items) :
    ∃ e ∈ items, ∃ s ∈ e.Subsets, ∃ a ∈ s.Addresses, ∃ p ∈ s.Ports,
      x = newInstance url e.ObjectMeta.Name a p := by
  obtain ⟨e, he, hxe⟩ := (mem_generatedInstances url items x).mp hx
  exact ⟨e, he, (mem_entryInstances url e x).mp hxe⟩

theorem listed_cases (kc : k8sCatalog) (endpointsList : EndpointsList)
    (n : String) (l : List ServiceInstance) (x : ServiceInstance)
    (hl : (getServices kc (Except.ok endpointsList)).services.lookup n = some l) (hx : x ∈ l) :
    ∃ e ∈ endpointsList.Items, ∃ s ∈ e.Subsets, ∃ a ∈ s.Addresses, ∃ p ∈ s.Ports,
      e.ObjectMeta.Name = n ∧
      x = newInstance (kc.client.getEndpointsURL kc.namespace_) n a p := by
  obtain ⟨e, he, hn, _, hle⟩ := mem_entry_of_services_lookup kc endpointsList n l hl
  subst hle
  obtain ⟨s, hs, a, ha, p, hp, hxe⟩ := (mem_entryInstances _ e x).mp hx
  exact ⟨e, he, s, hs, a, ha, p, hp, hn, hn ▸ hxe⟩

/-- C11: for every endpoint list, every instance of the index built by `getServices`,
in a `services` list or stored in `instances`, has status `UP`, TTL 0 and the
one-element tag sequence `kubernetes`. -/
theorem getServices_status_ttl_tags (kc : k8sCatalog) (endpointsList : EndpointsList) :
    (∀ n l x, (getServices kc (Except.ok endpointsList)).services.lookup n = some l → x ∈ l →
      x.Status = "UP" ∧ x.TTL = 0 ∧ x.Tags = ["kubernetes"]) ∧
    (∀ k r, (getServices kc (Except.ok endpointsList)).instances.lookup k = some r →
      r.Status = "UP" ∧ r.TTL = 0 ∧ r.Tags = ["kubernetes"]) := by
  constructor
  · intro n l x hl hx
    obtain ⟨e, _, s, _, a, _, p, _, _, rfl⟩ := listed_cases kc endpointsList n l x hl hx
    exact ⟨rfl, rfl, rfl⟩
  · intro k r hr
    obtain ⟨hgen, _⟩ := generated_of_instances_lookup kc endpointsList k r hr
    obtain ⟨e, _, s, _, a, _, p, _, rfl⟩ := generated_cases _ _ r hgen
    exact ⟨rfl, rfl, rfl⟩

/-- Witness of C11 on the scenario snapshot: the instance listed under `web` and the
record stored under `abc-8080` are `UP`, without TTL, tagged `kubernetes`. -/
theorem getServices_status_ttl_tags_witness :
    (webInstance.Status = "UP" ∧ webInstance.TTL = 0 ∧ webInstance.Tags = ["kubernetes"]) ∧
    (webInstance.Status = "UP" ∧ webInstance.TTL = 0 ∧ webInstance.Tags = ["kubernetes"]) :=
  ⟨(getServices_status_ttl_tags emptyCatalog webSnapshot).1 "web" [webInstance] webInstance
      (by rfl) (by simp),
   (getServices_status_ttl_tags emptyCatalog webSnapshot).2 "abc-8080" webInstance (by rfl)⟩

/-- C12: for every endpoint list whose ports report TCP or UDP, the two protocols of
the directory interface, every instance of the index built by `getServices`, in a
`services` list or stored in `instances`, has endpoint type `tcp` or `udp`. -/
theorem getServices_endpoint_type (kc : k8sCatalog) (endpointsList : EndpointsList)
    (hproto : ReportedProtocols endpointsList) :
    (∀ n l x, (getServices kc (Except.ok endpointsList)).services.lookup n = some l → x ∈ l →
      x.Endpoint.Type_ = "tcp" ∨ x.Endpoint.Type_ = "udp") ∧
    (∀ k r, (getServices kc (Except.ok endpointsList)).instances.lookup k = some r →
      r.Endpoint.Type_ = "tcp" ∨ r.Endpoint.Type_ = "udp") := by
  have key : ∀ (url sname : String) (a : EndpointAddress) (p : EndpointPort),
      p.Protocol = ProtocolTCP ∨ p.Protocol = ProtocolUDP →
      (newInstance url sname a p).Endpoint.Type_ = "tcp" ∨
        (newInstance url sname a p).Endpoint.Type_ = "udp" := by
    intro url sname a p h
    rcases h with h | h
    · exact Or.inl (by simp [newInstance, h])
    · exact Or.inr (by simp [newInstance, h])
  constructor
  · intro n l x hl hx
    obtain ⟨e, he, s, hs, a, _, p, hp, _, rfl⟩ := listed_cases kc endpointsList n l x hl hx
    exact key _ _ a p (hproto e he s hs p hp)
  · intro k r hr
    obtain ⟨hgen, _⟩ := generated_of_instances_lookup kc endpointsList k r hr
    obtain ⟨e, he, s, hs, a, _, p, hp, rfl⟩ := generated_cases _ _ r hgen
    exact key _ _ a p (hproto e he s hs p hp)

/-- Witness of C12 on the snapshot with one UDP and one TCP port: both instances
listed under `kube-dns` have type `tcp` or `udp`. -/
theorem getServices_endpoint_type_witness :
    ReportedProtocols dnsSnapshot ∧
    ∀ x ∈ [newInstance (exampleClient.getEndpointsURL "default") "kube-dns"
              { IP := "10.0.0.10", TargetRef := some { UID := "abc" } }
              { Port := 53, Protocol := ProtocolUDP },
           newInstance (exampleClient.getEndpointsURL "default") "kube-dns"
              { IP := "10.0.0.10", TargetRef := some { UID := "abc" } }
              { Port := 53, Protocol := ProtocolTCP }],
      x.Endpoint.Type_ = "tcp" ∨ x.Endpoint.Type_ = "udp" :=
  ⟨by decide,
   fun x hx => (getServices_endpoint_type emptyCatalog dnsSnapshot (by decide)).1 "kube-dns" _ x
      (by rfl) hx⟩

theorem lookup_insertAll_of_not_mem (m : instanceMap) (l : List ServiceInstance) (k : String)
    (h : ∀ y ∈ l, y.ID ≠ k) : (insertAll m l).lookup k = m.lookup k := by
  induction l using List.reverseRecOn with
  | nil => simp [insertAll]
  | append_singleton l y ih =>
    rw [insertAll_snoc]
    have hy : k ≠ y.ID := fun heq => h y (by simp) heq.symm
    rw [AList.lookup_insert_ne hy]
    exact ih (fun z hz => h z (by simp [hz]))

theorem lookup_insertAll_last (m : instanceMap) (pre post : List ServiceInstance)
    (x : ServiceInstance) (h : ∀ y ∈ post, y.ID ≠ x.ID) :
    (insertAll m (pre ++ x :: post)).lookup x.ID = some x := by
  have hsplit : pre ++ x :: post = (pre ++ [x]) ++ post := by simp
  rw [hsplit, ← insertAll_append, lookup_insertAll_of_not_mem _ _ _ h, insertAll_snoc]
  exact AList.lookup_insert _

/-- C13: for every snapshot, when an instance is the last one in enumeration order
(entries, then subsets, then addresses, then ports) that generates its ID, the
`instances` map built by `getServices` stores that instance under the ID, whatever
was generated with the same ID before it, and `Instance` on the refreshed catalog
returns it. -/
theorem getServices_last_write_wins (kc : k8sCatalog) (endpointsList : EndpointsList)
    (pre post : List ServiceInstance) (x : ServiceInstance)
    (hgen : generatedInstances (kc.client.getEndpointsURL kc.namespace_) endpointsList.Items =
      pre ++ x :: post)
    (hlast : ∀ y ∈ post, y.ID ≠ x.ID) :
    (getServices kc (Except.ok endpointsList)).instances.lookup x.ID = some x ∧
    Instance (refresh kc (Except.ok endpointsList)) x.ID = Except.ok x := by
  have hlook : (getServices kc (Except.ok endpointsList)).instances.lookup x.ID = some x := by
    rw [(getServices_ok kc endpointsList).2.1, hgen]
    exact lookup_insertAll_last _ pre post x hlast
  refine ⟨hlook, ?_⟩
  have hri := (refresh_ok_index kc endpointsList).2
  simp [Instance, hri, hlook, DeepClone_eq]

/-- Witness of C13 on the snapshot where port 53 is served over UDP and TCP: both
generate `abc-53`, and the TCP instance, generated last, is the one stored. -/
theorem getServices_last_write_wins_witness :
    (newInstance (exampleClient.getEndpointsURL "default") "kube-dns"
        { IP := "10.0.0.10", TargetRef := some { UID := "abc" } }
        { Port := 53, Protocol := ProtocolUDP }).ID = "abc-53" ∧
    Instance (refresh emptyCatalog (Except.ok dnsSnapshot)) "abc-53" =
      Except.ok (newInstance (exampleClient.getEndpointsURL "default") "kube-dns"
        { IP := "10.0.0.10", TargetRef := some { UID := "abc" } }
        { Port := 53, Protocol := ProtocolTCP }) :=
  ⟨by decide,
   (getServices_last_write_wins emptyCatalog dnsSnapshot
      [newInstance (exampleClient.getEndpointsURL "default") "kube-dns"
        { IP := "10.0.0.10", TargetRef := some { UID := "abc" } }
        { Port := 53, Protocol := ProtocolUDP }]
      []
      (newInstance (exampleClient.getEndpointsURL "default") "kube-dns"
        { IP := "10.0.0.10", TargetRef := some { UID := "abc" } }
        { Port := 53, Protocol := ProtocolTCP })
      (by rfl) (by simp)).2⟩

theorem length_subsetInstances (url sname : String) (subset : EndpointSubset) :
    (subsetInstances url sname subset).length =
      subset.Addresses.length * subset.Ports.length := by
  unfold subsetInstances
  generalize subset.Addresses = addrs
  induction addrs with
  | nil => simp
  | cons a rest ih =>
    simp only [List.flatMap_cons, List.length_append, List.length_map, ih, List.length_cons]
    ring

theorem length_entryInstances (url : String) (e : Endpoints) :
    (entryInstances url e).length =
      (e.Subsets.map (fun s => s.Addresses.length * s.Ports.length)).sum := by
  unfold entryInstances
  generalize e.Subsets = subsets
  induction subsets with
  | nil => simp
  | cons s rest ih =>
    simp only [List.flatMap_cons, List.length_append, length_subsetInstances, ih,
      List.map_cons, List.sum_cons]

/-- C14: for every snapshot whose entries have pairwise distinct names, the list
stored in `services` for an entry with at least one subset is the enumeration of the
entry: its subsets in order, within a subset its addresses in order, within an
address the ports of the subset in order, one instance per address and port; its
length is the sum over the subsets of addresses times ports. -/
theorem getServices_list_enumeration_order (kc : k8sCatalog) (endpointsList : EndpointsList)
    (e : Endpoints) (hnames : DistinctNames endpointsList) (he : e ∈ endpointsList.Items)
    (hsub : e.Subsets ≠ []) :
    ∃ l, (getServices kc (Except.ok endpointsList)).services.lookup e.ObjectMeta.Name = some l ∧
      l = e.Subsets.flatMap (fun s =>
            s.Addresses.flatMap (fun a =>
              s.Ports.map (fun p =>
                newInstance (kc.client.getEndpointsURL kc.namespace_) e.ObjectMeta.Name a p))) ∧
      l.length = (e.Subsets.map (fun s => s.Addresses.length * s.Ports.length)).sum := by
  refine ⟨entryInstances (kc.client.getEndpointsURL kc.namespace_) e, ?_, rfl,
    length_entryInstances _ e⟩
  rw [(getServices_ok kc endpointsList).1]
  exact lookup_insertEntries_of_nodup _ _ _ hnames e he hsub

/-- Witness of C14 on the snapshot with one address and two ports: the `kube-dns`
list has the UDP instance first and the TCP instance second, two in all. -/
theorem getServices_list_enumeration_order_witness :
    ∃ l, (getServices emptyCatalog (Except.ok dnsSnapshot)).services.lookup "kube-dns" = some l ∧
      l = [newInstance (exampleClient.getEndpointsURL "default") "kube-dns"
              { IP := "10.0.0.10", TargetRef := some { UID := "abc" } }
              { Port := 53, Protocol := ProtocolUDP },
           newInstance (exampleClient.getEndpointsURL "default") "kube-dns"
              { IP := "10.0.0.10", TargetRef := some { UID := "abc" } }
              { Port := 53, Protocol := ProtocolTCP }] ∧
      l.length = 2 :=
  getServices_list_enumeration_order emptyCatalog dnsSnapshot
    { ObjectMeta := { Name := "kube-dns" }
      Subsets := [{ Addresses := [{ IP := "10.0.0.10", TargetRef := some { UID := "abc" } }]
                    Ports := [{ Port := 53, Protocol := ProtocolUDP },
                              { Port := 53, Protocol := ProtocolTCP }] }] }
    (by decide) (by decide) (by decide)

/-- C15: for every namespace, client and reply of the directory, `newK8sCatalog`
returns a catalog and no error; when the first directory call fails the catalog has
two empty maps, so `ListServices` is empty for every predicate, `List` fails with
`ErrorNoSuchServiceName` for every name and `Instance` fails with
`ErrorNoSuchServiceInstance` for every ID. -/
theorem newK8sCatalog_fail_open (ns : Namespace) (client : k8sClient) :
    (∀ reply, (newK8sCatalog ns client reply).2 = none) ∧
    (∀ err,
      (newK8sCatalog ns client (Except.error err)).1.services = ∅ ∧
      (newK8sCatalog ns client (Except.error err)).1.instances = ∅ ∧
      (∀ predicate, ListServices (newK8sCatalog ns client (Except.error err)).1 predicate = []) ∧
      (∀ serviceName predicate, ∃ e,
        List_ (newK8sCatalog ns client (Except.error err)).1 serviceName predicate =
          Except.error e ∧ e.Code = ErrorCode.ErrorNoSuchServiceName) ∧
      (∀ instanceID, ∃ e,
        Instance (newK8sCatalog ns client (Except.error err)).1 instanceID = Except.error e ∧
          e.Code = ErrorCode.ErrorNoSuchServiceInstance)) := by
  refine ⟨fun _ => rfl, fun err => ⟨rfl, rfl, fun _ => rfl, fun serviceName _ => ?_,
    fun instanceID => ?_⟩⟩
  · exact ⟨NewError ErrorCode.ErrorNoSuchServiceName "no such service " serviceName, rfl, rfl⟩
  · exact ⟨NewError ErrorCode.ErrorNoSuchServiceInstance "no such service instance" instanceID,
      rfl, rfl⟩

theorem entryInstances_sublist_generated (url : String) (items : List Endpoints)
    (e : Endpoints) (he : e ∈ items) :
    (entryInstances url e).Sublist (generatedInstances url items) := by
  unfold generatedInstances
  rw [List.flatMap_def]
  exact List.sublist_flatten_of_mem (List.mem_map.mpr ⟨e, he, rfl⟩)

theorem mem_insertEntries (url : String) (sv : serviceMap) (items : List Endpoints)
    (n : String) :
    n ∈ insertEntries url sv items ↔
      n ∈ sv ∨ ∃ e ∈ items, e.ObjectMeta.Name = n ∧ e.Subsets ≠ [] := by
  induction items using List.reverseRecOn with
  | nil => simp [insertEntries]
  | append_singleton items y ih =>
    rw [insertEntries_snoc]
    by_cases hy : y.Subsets = []
    · rw [if_pos hy, ih]
      constructor
      · rintro (h | ⟨e, he, hrest⟩)
        · exact Or.inl h
        · exact Or.inr ⟨e, by simp [he], hrest⟩
      · rintro (h | ⟨e, he, hname, hsub⟩)
        · exact Or.inl h
        · rcases List.mem_append.mp he with he | he
          · exact Or.inr ⟨e, he, hname, hsub⟩
          · simp at he; subst he; exact absurd hy hsub
    · rw [if_neg hy, AList.mem_insert, ih]
      constructor
      · rintro (h | h | ⟨e, he, hrest⟩)
        · exact Or.inr ⟨y, by simp, h.symm, hy⟩
        · exact Or.inl h
        · exact Or.inr ⟨e, by simp [he], hrest⟩
      · rintro (h | ⟨e, he, hname, hsub⟩)
        · exact Or.inr (Or.inl h)
        · rcases List.mem_append.mp he with he | he
          · exact Or.inr (Or.inr ⟨e, he, hname, hsub⟩)
          · simp at he; subst he; exact Or.inl hname.symm

theorem entryInstances_eq_nil (url : String) (e : Endpoints)
    (h : ∀ s ∈ e.Subsets, s.Addresses = [] ∨ s.Ports = []) : entryInstances url e = [] := by
  rw [List.eq_nil_iff_forall_not_mem]
  intro x hx
  obtain ⟨s, hs, a, ha, p, hp, _⟩ := (mem_entryInstances url e x).mp hx
  rcases h s hs with h0 | h0
  · rw [h0] at ha; simp at ha
  · rw [h0] at hp; simp at hp

/-- C18: for every snapshot whose entries have pairwise distinct names and whose
generated instance IDs are pairwise distinct, the index built by `getServices` is
mutually consistent in both directions: the instances found in the `services` lists
are exactly the values of `instances`, each value is stored under its own ID, every
list is without repetition and holds instances of its own service name only, and
every value is listed exactly once, under its own service name and under no other. -/
theorem getServices_consistent_of_distinct (kc : k8sCatalog) (endpointsList : EndpointsList)
    (hnames : DistinctNames endpointsList)
    (hids : DistinctIDs (kc.client.getEndpointsURL kc.namespace_) endpointsList) :
    Consistent (getServices kc (Except.ok endpointsList)).services
      (getServices kc (Except.ok endpointsList)).instances ∧
    (∀ x, (∃ n l, (getServices kc (Except.ok endpointsList)).services.lookup n = some l ∧ x ∈ l) ↔
      ∃ k, (getServices kc (Except.ok endpointsList)).instances.lookup k = some x) ∧
    (∀ n l, (getServices kc (Except.ok endpointsList)).services.lookup n = some l →
      l.Nodup ∧ ∀ x ∈ l, x.ServiceName = n) ∧
    (∀ k r, (getServices kc (Except.ok endpointsList)).instances.lookup k = some r →
      r.ID = k ∧
      (∃ l, (getServices kc (Except.ok endpointsList)).services.lookup r.ServiceName = some l ∧
        l.count r = 1) ∧
      (∀ n l, (getServices kc (Except.ok endpointsList)).services.lookup n = some l → r ∈ l →
        n = r.ServiceName)) := by
  have hgnd : (generatedInstances (kc.client.getEndpointsURL kc.namespace_)
      endpointsList.Items).Nodup := List.Nodup.of_map _ hids
  -- every listed instance is the record stored under its ID
  have hA : ∀ n l x, (getServices kc (Except.ok endpointsList)).services.lookup n = some l →
      x ∈ l → (getServices kc (Except.ok endpointsList)).instances.lookup x.ID = some x := by
    intro n l x hl hx
    obtain ⟨e, he, _, _, hle⟩ := mem_entry_of_services_lookup kc endpointsList n l hl
    rw [(getServices_ok kc endpointsList).2.1]
    exact lookup_insertAll_of_nodup _ _ hids x
      ((mem_generatedInstances _ _ _).mpr ⟨e, he, hle ▸ hx⟩)
  -- every stored record is listed under its service name
  have hB : ∀ k r, (getServices kc (Except.ok endpointsList)).instances.lookup k = some r →
      ∃ l, (getServices kc (Except.ok endpointsList)).services.lookup r.ServiceName = some l ∧
        r ∈ l := by
    intro k r hr
    obtain ⟨hgen, _⟩ := generated_of_instances_lookup kc endpointsList k r hr
    obtain ⟨e, he, hre⟩ := (mem_generatedInstances _ _ _).mp hgen
    refine ⟨entryInstances (kc.client.getEndpointsURL kc.namespace_) e, ?_, hre⟩
    rw [serviceName_of_mem_entryInstances _ e r hre, (getServices_ok kc endpointsList).1]
    exact lookup_insertEntries_of_nodup _ _ _ hnames e he
      (subsets_ne_nil_of_mem_entryInstances _ e r hre)
  -- the lists
  have hC : ∀ n l, (getServices kc (Except.ok endpointsList)).services.lookup n = some l →
      l.Nodup ∧ ∀ x ∈ l, x.ServiceName = n := by
    intro n l hl
    obtain ⟨e, he, hn, _, hle⟩ := mem_entry_of_services_lookup kc endpointsList n l hl
    subst hle
    exact ⟨(entryInstances_sublist_generated _ _ e he).nodup hgnd,
      fun x hx => hn ▸ serviceName_of_mem_entryInstances _ e x hx⟩
  refine ⟨⟨hA, hB⟩, ?_, hC, ?_⟩
  · intro x
    constructor
    · rintro ⟨n, l, hl, hx⟩
      exact ⟨x.ID, hA n l x hl hx⟩
    · rintro ⟨k, hk⟩
      obtain ⟨l, hl, hx⟩ := hB k x hk
      exact ⟨x.ServiceName, l, hl, hx⟩
  · intro k r hr
    obtain ⟨l, hl, hrl⟩ := hB k r hr
    refine ⟨(generated_of_instances_lookup kc endpointsList k r hr).2, ⟨l, hl, ?_⟩, ?_⟩
    · exact List.count_eq_one_of_mem (hC _ l hl).1 hrl
    · intro n l' hl' hr'
      exact ((hC n l' hl').2 r hr').symm

/-- Witness of C18 on the scenario snapshot: names and IDs are distinct there and the
one instance is listed exactly once under `web`. -/
theorem getServices_consistent_of_distinct_witness :
    DistinctNames webSnapshot ∧
    DistinctIDs (emptyCatalog.client.getEndpointsURL emptyCatalog.namespace_) webSnapshot ∧
    ∃ l, (getServices emptyCatalog (Except.ok webSnapshot)).services.lookup
        webInstance.ServiceName = some l ∧ l.count webInstance = 1 :=
  ⟨by decide, by decide,
   ((getServices_consistent_of_distinct emptyCatalog webSnapshot (by decide) (by decide)).2.2.2
      "abc-8080" webInstance (by rfl)).2.1⟩

/-- C19: for every snapshot, a name is a key of the built `services` if and only if
some entry with that name has at least one subset.  When no entry of the name has a
subset, `List` on the name fails with `ErrorNoSuchServiceName`; when an entry of the
name has a subset and the subsets of the entries of that name have no addresses or
no ports, the name is stored with an empty list and `List` succeeds with the empty
sequence. -/
theorem getServices_key_iff_entry_has_subset (kc : k8sCatalog) (endpointsList : EndpointsList)
    (n : String) :
    (n ∈ (getServices kc (Except.ok endpointsList)).services ↔
      ∃ e ∈ endpointsList.Items, e.ObjectMeta.Name = n ∧ e.Subsets ≠ []) ∧
    ((∀ e ∈ endpointsList.Items, e.ObjectMeta.Name = n → e.Subsets = []) →
      ∀ predicate, ∃ err,
        List_ (refresh kc (Except.ok endpointsList)) n predicate = Except.error err ∧
          err.Code = ErrorCode.ErrorNoSuchServiceName) ∧
    ((∃ e ∈ endpointsList.Items, e.ObjectMeta.Name = n ∧ e.Subsets ≠ []) →
      (∀ e ∈ endpointsList.Items, e.ObjectMeta.Name = n →
        ∀ s ∈ e.Subsets, s.Addresses = [] ∨ s.Ports = []) →
      (getServices kc (Except.ok endpointsList)).services.lookup n = some [] ∧
      ∀ predicate, List_ (refresh kc (Except.ok endpointsList)) n predicate = Except.ok []) := by
  have hkey : n ∈ (getServices kc (Except.ok endpointsList)).services ↔
      ∃ e ∈ endpointsList.Items, e.ObjectMeta.Name = n ∧ e.Subsets ≠ [] := by
    rw [(getServices_ok kc endpointsList).1, mem_insertEntries]
    simp
  have hrs := (refresh_ok_index kc endpointsList).1
  refine ⟨hkey, ?_, ?_⟩
  · intro hnone predicate
    have hnot : n ∉ (getServices kc (Except.ok endpointsList)).services := by
      rw [hkey]
      rintro ⟨e, he, hname, hsub⟩
      exact hsub (hnone e he hname)
    have hlook := AList.lookup_eq_none.mpr hnot
    exact ⟨NewError ErrorCode.ErrorNoSuchServiceName "no such service " n,
      by simp [List_, hrs, hlook], rfl⟩
  · intro hsome hempty
    have hmem := hkey.mpr hsome
    rw [← AList.lookup_isSome, Option.isSome_iff_exists] at hmem
    obtain ⟨l, hl⟩ := hmem
    obtain ⟨e, he, hname, _, hle⟩ := mem_entry_of_services_lookup kc endpointsList n l hl
    have hnil : l = [] := by
      rw [hle]
      exact entryInstances_eq_nil _ e (hempty e he hname)
    subst hnil
    refine ⟨hl, fun predicate => ?_⟩
    simp [List_, hrs, hl, listLoop]

/-- Witness of C19: in the index of `mixedSnapshot` the entry `idle`, without a
subset, gives no key and `List` fails on it; in the index of `pendingSnapshot` the
entry `web`, whose subset has no address, is stored with an empty list. -/
theorem getServices_key_iff_entry_has_subset_witness :
    "idle" ∉ (getServices emptyCatalog (Except.ok mixedSnapshot)).services ∧
    "web" ∈ (getServices emptyCatalog (Except.ok mixedSnapshot)).services ∧
    (∃ err, List_ (refresh emptyCatalog (Except.ok mixedSnapshot)) "idle" none =
        Except.error err ∧ err.Code = ErrorCode.ErrorNoSuchServiceName) ∧
    List_ (refresh emptyCatalog (Except.ok pendingSnapshot)) "web" none = Except.ok [] :=
  ⟨fun h =>
      absurd ((getServices_key_iff_entry_has_subset emptyCatalog mixedSnapshot "idle").1.mp h)
        (by decide),
   (getServices_key_iff_entry_has_subset emptyCatalog mixedSnapshot "web").1.mpr (by decide),
   (getServices_key_iff_entry_has_subset emptyCatalog mixedSnapshot "idle").2.1 (by decide) none,
   ((getServices_key_iff_entry_has_subset emptyCatalog pendingSnapshot "web").2.2
      (by decide) (by decide)).2 none⟩

/-- C20: for every endpoint list, in the index built by `getServices` every instance
of the list stored for `n` has service name `n` and every key of `instances` maps to
an instance whose ID is that key; hence on the refreshed catalog a successful `List`
of `n` returns only instances of service name `n` and a successful `Instance` of `k`
returns an instance whose ID is `k`. -/
theorem getServices_keys_match_records (kc : k8sCatalog) (endpointsList : EndpointsList) :
    (∀ n l x, (getServices kc (Except.ok endpointsList)).services.lookup n = some l → x ∈ l →
      x.ServiceName = n) ∧
    (∀ k r, (getServices kc (Except.ok endpointsList)).instances.lookup k = some r → r.ID = k) ∧
    (∀ n predicate l, List_ (refresh kc (Except.ok endpointsList)) n predicate = Except.ok l →
      ∀ x ∈ l, x.ServiceName = n) ∧
    (∀ k r, Instance (refresh kc (Except.ok endpointsList)) k = Except.ok r → r.ID = k) := by
  have hsvc : ∀ n l x, (getServices kc (Except.ok endpointsList)).services.lookup n = some l →
      x ∈ l → x.ServiceName = n := by
    intro n l x hl hx
    obtain ⟨e, _, hn, _, hle⟩ := mem_entry_of_services_lookup kc endpointsList n l hl
    subst hle
    exact hn ▸ serviceName_of_mem_entryInstances _ e x hx
  have hid : ∀ k r, (getServices kc (Except.ok endpointsList)).instances.lookup k = some r →
      r.ID = k := fun k r hr => (generated_of_instances_lookup kc endpointsList k r hr).2
  obtain ⟨hrs, hri⟩ := refresh_ok_index kc endpointsList
  refine ⟨hsvc, hid, ?_, ?_⟩
  · intro n predicate l hl x hx
    cases hlook : (getServices kc (Except.ok endpointsList)).services.lookup n with
    | none => simp [List_, hrs, hlook] at hl
    | some service =>
      simp only [List_, hrs, hlook, listLoop_eq, List.nil_append, Except.ok.injEq] at hl
      subst hl
      exact hsvc n service x hlook (List.mem_filter.mp hx).1
  · intro k r hr
    cases hlook : (getServices kc (Except.ok endpointsList)).instances.lookup k with
    | none => simp [Instance, hri, hlook] at hr
    | some inst =>
      simp only [Instance, hri, hlook, DeepClone_eq, Except.ok.injEq] at hr
      subst hr
      exact hid k inst hlook

/-- Witness of C20 on the scenario catalog: `List` of `web` returns instances named
`web` and `Instance` of `abc-8080` returns a record with that ID. -/
theorem getServices_keys_match_records_witness :
    (∀ x ∈ [webInstance], x.ServiceName = "web") ∧ webInstance.ID = "abc-8080" :=
  ⟨(getServices_keys_match_records emptyCatalog webSnapshot).2.2.1 "web" none [webInstance]
      (by rfl),
   (getServices_keys_match_records emptyCatalog webSnapshot).2.2.2 "abc-8080" webInstance
      (by rfl)⟩

/-- C17 (as stated, refuted): in the refresh of the empty catalog from the scenario
snapshot the directory call is a step that runs while the write lock is held. -/
theorem refresh_directory_call_under_lock :
    ¬ (∀ i, (refreshTraced emptyCatalog (Except.ok webSnapshot)).2[i]? =
          some Event.directoryCall →
        lockHeldAt (refreshTraced emptyCatalog (Except.ok webSnapshot)).2 i = false) := by
  intro h
  have h1 := h 1 (by decide)
  revert h1
  decide

/-- C17 (amended): in every refresh the write lock is taken first and released last:
the trace starts with `lock`, ends with `unlock`, contains the directory call, and
every step other than `lock` (the directory call, the warning, the building of the
new index, the swap and the release) runs while the write lock is held; the traced
method computes the catalog `refresh` computes. -/
theorem refresh_holds_lock_throughout (kc : k8sCatalog) (reply : DirectoryReply) :
    (refreshTraced kc reply).1 = refresh kc reply ∧
    (refreshTraced kc reply).2.head? = some Event.lock ∧
    (refreshTraced kc reply).2.getLast? = some Event.unlock ∧
    Event.directoryCall ∈ (refreshTraced kc reply).2 ∧
    (∀ i ev, (refreshTraced kc reply).2[i]? = some ev → ev ≠ Event.lock →
      lockHeldAt (refreshTraced kc reply).2 i = true) := by
  cases reply with
  | error err =>
    refine ⟨rfl, rfl, rfl, by simp [refreshTraced, getServicesTraced, getServices], ?_⟩
    intro i ev hi hne
    have htr : (refreshTraced kc (Except.error err)).2 =
        [Event.lock, Event.directoryCall, Event.warn, Event.unlock] := rfl
    rw [htr] at hi ⊢
    rcases i with _ | _ | _ | _ | i
    · simp at hi; exact absurd hi.symm hne
    · rfl
    · rfl
    · rfl
    · simp at hi
  | ok endpointsList =>
    refine ⟨rfl, rfl, rfl, by simp [refreshTraced, getServicesTraced, getServices], ?_⟩
    intro i ev hi hne
    have htr : (refreshTraced kc (Except.ok endpointsList)).2 =
        [Event.lock, Event.directoryCall, Event.buildIndex, Event.swap, Event.unlock] := rfl
    rw [htr] at hi ⊢
    rcases i with _ | _ | _ | _ | _ | i
    · simp at hi; exact absurd hi.symm hne
    · rfl
    · rfl
    · rfl
    · rfl
    · simp at hi

/-- Witness of C17 (amended) on the scenario: the directory call is step 1 of the
refresh and the write lock is held when it runs. -/
theorem refresh_holds_lock_throughout_witness :
    (refreshTraced emptyCatalog (Except.ok webSnapshot)).2[1]? = some Event.directoryCall ∧
    lockHeldAt (refreshTraced emptyCatalog (Except.ok webSnapshot)).2 1 = true :=
  ⟨by decide,
   (refresh_holds_lock_throughout emptyCatalog (Except.ok webSnapshot)).2.2.2.2 1
      Event.directoryCall (by decide) (by decide)⟩

/-! ## Lemmas about the memory -/

theorem keeps_refl {α : Type} (l : List α) : Keeps l l := fun _ _ h => h

theorem keeps_trans {α : Type} {l₁ l₂ l₃ : List α} (h₁ : Keeps l₁ l₂) (h₂ : Keeps l₂ l₃) :
    Keeps l₁ l₃ := fun i x h => h₂ i x (h₁ i x h)

theorem keeps_length_le {α : Type} {old new : List α} (h : Keeps old new) :
    old.length ≤ new.length := by
  by_contra hlt
  push_neg at hlt
  have hsome : old[new.length]? = some (old[new.length]) := List.getElem?_eq_getElem hlt
  have hnew := h _ _ hsome
  have hnone : new[new.length]? = none := List.getElem?_eq_none (le_refl _)
  rw [hnone] at hnew
  cases hnew

theorem keeps_append {α : Type} (l t : List α) : Keeps l (l ++ t) := by
  intro i x h
  have hi : i < l.length := (List.getElem?_eq_some_iff.mp h).1
  rw [List.getElem?_append_left hi]
  exact h

theorem keeps_set_of_le {α : Type} {old new : List α} (h : Keeps old new) (j : Nat) (v : α)
    (hj : old.length ≤ j) : Keeps old (new.set j v) := by
  intro i x hx
  have hi : i < old.length := (List.getElem?_eq_some_iff.mp hx).1
  have hne : j ≠ i := by omega
  rw [List.getElem?_set_ne hne]
  exact h i x hx

theorem extends_refl (mem : Memory) : mem.Extends mem :=
  ⟨keeps_refl _, keeps_refl _, keeps_refl _, keeps_refl _⟩

theorem extends_trans {m₁ m₂ m₃ : Memory} (h₁ : m₁.Extends m₂) (h₂ : m₂.Extends m₃) :
    m₁.Extends m₃ :=
  ⟨keeps_trans h₁.1 h₂.1, keeps_trans h₁.2.1 h₂.2.1, keeps_trans h₁.2.2.1 h₂.2.2.1,
    keeps_trans h₁.2.2.2 h₂.2.2.2⟩

theorem load_of_extends {old new : Memory} (h : old.Extends new) (a : Addr)
    (v : ServiceInstance) (hv : old.load a = some v) : new.load a = some v := by
  unfold Memory.load at hv ⊢
  cases hc : old.instanceCells[a]? with
  | none => simp [hc] at hv
  | some c =>
    rw [hc] at hv
    rw [h.1 a c hc]
    cases he : old.endpointCells[c.Endpoint]? with
    | none => simp [he] at hv
    | some e =>
      cases hb : old.byteArrays[c.Metadata]? with
      | none => simp [he, hb] at hv
      | some b =>
        cases ht : old.tagArrays[c.Tags]? with
        | none => simp [he, hb, ht] at hv
        | some t =>
          simp only [he, hb, ht] at hv
          simp only [h.2.1 _ e he, h.2.2.1 _ b hb, h.2.2.2 _ t ht]
          exact hv

theorem load_eq_of_extends {old new : Memory} (h : old.Extends new) (a : Addr)
    (ha : (old.load a).isSome) : new.load a = old.load a := by
  obtain ⟨v, hv⟩ := Option.isSome_iff_exists.mp ha
  rw [hv]
  exact load_of_extends h a v hv

theorem fresh_mono {base mem mem₁ mem₂ : Memory} {c : Addr} {owned : InstanceCell}
    (hf : Fresh mem mem₁ c owned) (hb : base.Extends mem) (h₂ : mem₁.Extends mem₂) :
    Fresh base mem₂ c owned :=
  ⟨h₂.1 c owned hf.1, le_trans (keeps_length_le hb.1) hf.2.1,
    le_trans (keeps_length_le hb.2.1) hf.2.2.1, le_trans (keeps_length_le hb.2.2.1) hf.2.2.2.1,
    le_trans (keeps_length_le hb.2.2.2) hf.2.2.2.2⟩

theorem DeepClone_spec (mem : Memory) (a : Addr) (v : ServiceInstance)
    (hv : mem.load a = some v) :
    ∃ mem₁ owned, mem.DeepClone a = some (mem₁, mem.instanceCells.length) ∧
      mem.Extends mem₁ ∧ mem₁.load mem.instanceCells.length = some v ∧
      Fresh mem mem₁ mem.instanceCells.length owned := by
  refine ⟨{ instanceCells := mem.instanceCells ++
              [{ ID := v.ID, ServiceName := v.ServiceName
                 Endpoint := mem.endpointCells.length, Status := v.Status
                 Metadata := mem.byteArrays.length, Tags := mem.tagArrays.length
                 TTL := v.TTL }]
            endpointCells := mem.endpointCells ++ [v.Endpoint]
            byteArrays := mem.byteArrays ++ [v.Metadata]
            tagArrays := mem.tagArrays ++ [v.Tags] },
          { ID := v.ID, ServiceName := v.ServiceName
            Endpoint := mem.endpointCells.length, Status := v.Status
            Metadata := mem.byteArrays.length, Tags := mem.tagArrays.length
            TTL := v.TTL },
          by simp only [Memory.DeepClone, hv], ?_, ?_, ?_⟩
  · exact ⟨keeps_append _ _, keeps_append _ _, keeps_append _ _, keeps_append _ _⟩
  · simp [Memory.load]
  · exact ⟨by simp, le_refl _, le_refl _, le_refl _, le_refl _⟩

theorem listLoopPtr_spec (base : Memory) (predicate : Predicate) (l : List Addr)
    (hl : ∀ a ∈ l, (base.load a).isSome) (mem : Memory) (coll : List Addr)
    (hext : base.Extends mem) :
    ∃ mem₁ coll₁, listLoopPtr predicate l mem coll = some (mem₁, coll ++ coll₁) ∧
      mem.Extends mem₁ ∧
      coll₁.map mem₁.load = ((l.filterMap base.load).filter (accepts predicate)).map some ∧
      ∀ c ∈ coll₁, ∃ owned, Fresh base mem₁ c owned := by
  induction l generalizing mem coll with
  | nil => exact ⟨mem, [], by simp [listLoopPtr], extends_refl _, by simp, by simp⟩
  | cons a rest ih =>
    obtain ⟨v, hv⟩ := Option.isSome_iff_exists.mp (hl a (by simp))
    have hmv : mem.load a = some v := load_of_extends hext a v hv
    have hrest : ∀ b ∈ rest, (base.load b).isSome := fun b hb => hl b (by simp [hb])
    by_cases hacc : accepts predicate v = true
    · obtain ⟨mem₁, owned, hclone, hext₁, hload₁, hfresh₁⟩ := DeepClone_spec mem a v hmv
      obtain ⟨mem₂, coll₂, hloop, hext₂, hvals, hfr⟩ :=
        ih hrest mem₁ (coll ++ [mem.instanceCells.length]) (extends_trans hext hext₁)
      refine ⟨mem₂, mem.instanceCells.length :: coll₂, ?_, extends_trans hext₁ hext₂, ?_, ?_⟩
      · simp only [listLoopPtr, hmv, hacc, hclone, if_true]
        rw [hloop]
        simp
      · simp only [List.map_cons, List.filterMap_cons, hv, List.filter_cons, hacc, if_true]
        rw [load_of_extends hext₂ _ v hload₁, hvals]
      · intro c hc
        rcases List.mem_cons.mp hc with hc | hc
        · subst hc
          exact ⟨owned, fresh_mono hfresh₁ hext hext₂⟩
        · exact hfr c hc
    · obtain ⟨mem₂, coll₂, hloop, hext₂, hvals, hfr⟩ := ih hrest mem coll hext
      refine ⟨mem₂, coll₂, ?_, hext₂, ?_, hfr⟩
      · simp only [listLoopPtr, hmv, hacc]
        exact hloop
      · simp only [List.filterMap_cons, hv, List.filter_cons, hacc]
        exact hvals

theorem mutate_extends {base mem : Memory} (hext : base.Extends mem) (a : Addr)
    (owned : InstanceCell) (ha : base.instanceCells.length ≤ a)
    (he : base.endpointCells.length ≤ owned.Endpoint)
    (hb : base.byteArrays.length ≤ owned.Metadata) (ht : base.tagArrays.length ≤ owned.Tags)
    (mu : Mutation) : base.Extends (mem.mutate a owned mu) := by
  cases mu with
  | setFields c => exact ⟨keeps_set_of_le hext.1 a c ha, hext.2.1, hext.2.2.1, hext.2.2.2⟩
  | setEndpoint e => exact ⟨hext.1, keeps_set_of_le hext.2.1 _ e he, hext.2.2.1, hext.2.2.2⟩
  | setMetadata b => exact ⟨hext.1, hext.2.1, keeps_set_of_le hext.2.2.1 _ b hb, hext.2.2.2⟩
  | setTags t => exact ⟨hext.1, hext.2.1, hext.2.2.1, keeps_set_of_le hext.2.2.2 _ t ht⟩

theorem mutateAll_extends {base mem : Memory} (hext : base.Extends mem) (a : Addr)
    (owned : InstanceCell) (ha : base.instanceCells.length ≤ a)
    (he : base.endpointCells.length ≤ owned.Endpoint)
    (hb : base.byteArrays.length ≤ owned.Metadata) (ht : base.tagArrays.length ≤ owned.Tags)
    (ms : List Mutation) : base.Extends (mem.mutateAll a owned ms) := by
  induction ms generalizing mem with
  | nil => exact hext
  | cons mu rest ih =>
    exact ih (mutate_extends hext a owned ha he hb ht mu)
theorem listValues_ListPtr (mem : Memory) (services : serviceMapPtr)
    (hwf : ∀ n l a, services.lookup n = some l → a ∈ l → (mem.load a).isSome)
    (serviceName : String) (predicate : Predicate) :
    listValues (ListPtr mem services serviceName predicate) =
      some (match services.lookup serviceName with
        | none =>
          Except.error (NewError ErrorCode.ErrorNoSuchServiceName "no such service " serviceName)
        | some l => Except.ok ((listLoop predicate (l.filterMap mem.load) []).map some)) := by
  cases hlook : services.lookup serviceName with
  | none => simp [ListPtr, hlook, listValues, Except.map]
  | some l =>
    obtain ⟨mem₁, coll₁, hloop, _, hvals, _⟩ :=
      listLoopPtr_spec mem predicate l (hwf serviceName l · hlook) mem []
        (extends_refl _)
    simp only [ListPtr, hlook, hloop, listValues, Option.map_some', Except.map, List.nil_append,
      hvals, listLoop_eq]

theorem instanceValue_InstancePtr (mem : Memory) (instances : instanceMapPtr)
    (hwf : ∀ k a, instances.lookup k = some a → (mem.load a).isSome) (instanceID : String) :
    instanceValue (InstancePtr mem instances instanceID) =
      some (match instances.lookup instanceID with
        | none =>
          Except.error (NewError ErrorCode.ErrorNoSuchServiceInstance
            "no such service instance" instanceID)
        | some a => Except.ok (mem.load a)) := by
  cases hlook : instances.lookup instanceID with
  | none => simp [InstancePtr, hlook, instanceValue, Except.map]
  | some a =>
    obtain ⟨v, hv⟩ := Option.isSome_iff_exists.mp (hwf instanceID a hlook)
    obtain ⟨mem₁, owned, hclone, _, hload, _⟩ := DeepClone_spec mem a v hv
    simp only [InstancePtr, hlook, hclone, instanceValue, Option.map_some', Except.map, hload, hv]

theorem indexUntouched_of_extends (mem new : Memory) (services : serviceMapPtr)
    (instances : instanceMapPtr) (hwf : IndexAllocated mem services instances)
    (hext : mem.Extends new) : IndexUntouched mem new services instances := by
  have hs : ∀ n l a, services.lookup n = some l → a ∈ l → new.load a = mem.load a :=
    fun n l a hl ha => load_eq_of_extends hext a (hwf.1 n l a hl ha)
  have hi : ∀ k a, instances.lookup k = some a → new.load a = mem.load a :=
    fun k a hk => load_eq_of_extends hext a (hwf.2 k a hk)
  refine ⟨hs, hi, ?_, ?_⟩
  · intro serviceName predicate
    rw [listValues_ListPtr mem services hwf.1,
      listValues_ListPtr new services (fun n l a hl ha => by
        rw [hs n l a hl ha]; exact hwf.1 n l a hl ha)]
    cases hlook : services.lookup serviceName with
    | none => rfl
    | some l =>
      have hcongr : l.filterMap new.load = l.filterMap mem.load :=
        List.filterMap_congr (fun a ha => hs serviceName l a hlook ha)
      simp only [hcongr]
  · intro instanceID
    rw [instanceValue_InstancePtr mem instances hwf.2,
      instanceValue_InstancePtr new instances (fun k a hk => by
        rw [hi k a hk]; exact hwf.2 k a hk)]
    cases hlook : instances.lookup instanceID with
    | none => rfl
    | some a => simp only [hi instanceID a hlook]

theorem webIndex_allocated : IndexAllocated webMemory webServicesPtr webInstancesPtr := by
  constructor
  · intro n l a hl ha
    by_cases hn : n = "web"
    · subst hn
      have h2 : webServicesPtr.lookup "web" = some [0] := by decide
      rw [h2] at hl
      cases hl
      simp at ha
      subst ha
      decide
    · rw [webServicesPtr, AList.lookup_insert_ne hn, AList.lookup_empty] at hl
      cases hl
  · intro k a hk
    by_cases hn : k = "abc-8080"
    · subst hn
      have h2 : webInstancesPtr.lookup "abc-8080" = some 0 := by decide
      rw [h2] at hk
      cases hk
      decide
    · rw [webInstancesPtr, AList.lookup_insert_ne hn, AList.lookup_empty] at hk
      cases hk

theorem stored_pointer_is_shared :
    instanceValue (InstancePtr
        (webMemory.mutate 0
          { ID := "abc-8080", ServiceName := "web", Endpoint := 0, Status := "UP"
            Metadata := 0, Tags := 0, TTL := 0 }
          (Mutation.setEndpoint { Type_ := "udp", Value := "192.0.2.1:53" }))
        webInstancesPtr "abc-8080") ≠
      instanceValue (InstancePtr webMemory webInstancesPtr "abc-8080") := by
  intro h
  have h1 : instanceValue (InstancePtr webMemory webInstancesPtr "abc-8080") =
      some (Except.ok (some webInstance)) := by rfl
  rw [h1] at h
  injection h with h
  injection h with h
  injection h with h
  revert h
  decide

/-- C16: for every memory and index whose pointers are allocated, `List` and
`Instance` return; for every pointer they return, whatever sequence of mutations the
caller performs through it (assigning the fields of the returned object, writing
through its endpoint pointer, overwriting its metadata bytes or its tags), every
pointer of the index still denotes the record it denoted before, and `List` and
`Instance` called afterwards return the records they returned before. -/
theorem returned_instances_isolated (mem : Memory) (services : serviceMapPtr)
    (instances : instanceMapPtr) (hwf : IndexAllocated mem services instances) :
    (∀ serviceName predicate, ∃ mem₁ res,
      ListPtr mem services serviceName predicate = some (mem₁, res) ∧
      ∀ coll, res = Except.ok coll → ∀ c ∈ coll, ∃ owned,
        mem₁.instanceCells[c]? = some owned ∧
        ∀ ms, IndexUntouched mem (mem₁.mutateAll c owned ms) services instances) ∧
    (∀ instanceID, ∃ mem₁ res,
      InstancePtr mem instances instanceID = some (mem₁, res) ∧
      ∀ c, res = Except.ok c → ∃ owned,
        mem₁.instanceCells[c]? = some owned ∧
        ∀ ms, IndexUntouched mem (mem₁.mutateAll c owned ms) services instances) := by
  constructor
  · intro serviceName predicate
    cases hlook : services.lookup serviceName with
    | none =>
      refine ⟨mem,
        Except.error (NewError ErrorCode.ErrorNoSuchServiceName "no such service " serviceName),
        by simp only [ListPtr, hlook], ?_⟩
      intro coll hres
      cases hres
    | some l =>
      obtain ⟨mem₁, coll₁, hloop, hext, _, hfresh⟩ :=
        listLoopPtr_spec mem predicate l (hwf.1 serviceName l · hlook) mem []
          (extends_refl _)
      refine ⟨mem₁, Except.ok coll₁, by simp only [ListPtr, hlook, hloop, List.nil_append], ?_⟩
      intro coll hres c hc
      cases hres
      obtain ⟨owned, hown, ha, he, hb, ht⟩ := hfresh c hc
      exact ⟨owned, hown, fun ms =>
        indexUntouched_of_extends mem _ services instances hwf
          (mutateAll_extends hext c owned ha he hb ht ms)⟩
  · intro instanceID
    cases hlook : instances.lookup instanceID with
    | none =>
      refine ⟨mem,
        Except.error (NewError ErrorCode.ErrorNoSuchServiceInstance "no such service instance"
          instanceID),
        by simp only [InstancePtr, hlook], ?_⟩
      intro c hres
      cases hres
    | some a =>
      obtain ⟨v, hv⟩ := Option.isSome_iff_exists.mp (hwf.2 instanceID a hlook)
      obtain ⟨mem₁, owned, hclone, hext, _, hown, ha, he, hb, ht⟩ := DeepClone_spec mem a v hv
      refine ⟨mem₁, Except.ok mem.instanceCells.length,
        by simp only [InstancePtr, hlook, hclone], ?_⟩
      intro c hres
      cases hres
      exact ⟨owned, hown, fun ms =>
        indexUntouched_of_extends mem _ services instances hwf
          (mutateAll_extends hext _ owned ha he hb ht ms)⟩

/-- Witness of C16 on the scenario memory: `List` of `web` returns one pointer, to a
copy; after the caller overwrites the endpoint and the tags of the copy, `Instance`
of `abc-8080` still returns the record of the scenario. -/
theorem returned_instances_isolated_witness :
    IndexAllocated webMemory webServicesPtr webInstancesPtr ∧
    ∃ mem₁ c owned,
      ListPtr webMemory webServicesPtr "web" none = some (mem₁, Except.ok [c]) ∧
      mem₁.instanceCells[c]? = some owned ∧
      instanceValue (InstancePtr
          (mem₁.mutateAll c owned
            [Mutation.setEndpoint { Type_ := "udp", Value := "192.0.2.1:53" },
             Mutation.setTags []])
          webInstancesPtr "abc-8080") =
        some (Except.ok (some webInstance)) := by
  refine ⟨webIndex_allocated, ?_⟩
  obtain ⟨mem₁, res, hcall, hiso⟩ :=
    (returned_instances_isolated webMemory webServicesPtr webInstancesPtr
      webIndex_allocated).1 "web" none
  have hres : res = Except.ok [1] := by
    have h1 : (ListPtr webMemory webServicesPtr "web" none).map (fun r => r.2) =
        some (Except.ok [1]) := by rfl
    rw [hcall] at h1
    simpa using h1
  subst hres
  obtain ⟨owned, hown, hall⟩ := hiso [1] rfl 1 (by simp)
  refine ⟨mem₁, 1, owned, hcall, hown, ?_⟩
  rw [(hall _).2.2.2 "abc-8080"]
  rfl

end kubernetes
